import Mathlib

/-!
Verification development for the Auratyme scheduler core.

Shallow embedding of the Python source
(`src/utils/time_utils.py`, `src/core/constraint_solver.py`,
`src/core/scheduler.py`, `src/core/sleep.py`, `src/core/chronotype.py`).
Conventions of the embedding:
* wall-clock minutes and durations are `Nat`/`Int`;
* Python floats are modelled as exact rationals (`Rat`); the numeric claims
  settled here are robust to this choice (checked at each counterexample);
* fallible code paths return `Option`/`Except`;
* external effects (the OR-Tools CP-SAT engine, the LLM engine) enter as
  explicit oracle parameters.
-/

set_option allowUnsafeReducibility true
attribute [semireducible] Rat.add Rat.mul Rat.inv Rat.div Rat.sub Rat.neg Rat.normalize Rat.floor

/-- Python `int(x)` applied to a rational: truncation toward zero. -/
def pyTrunc (q : ℚ) : ℤ := if 0 ≤ q then ⌊q⌋ else ⌈q⌉

/-- Python `round(x)` applied to a rational: banker's rounding
(round half to even). -/
def pyRound (q : ℚ) : ℤ :=
  let f := ⌊q⌋
  let r := q - f
  if r < 1/2 then f
  else if 1/2 < r then f + 1
  else if f % 2 = 0 then f else f + 1

/-- `time_to_total_minutes` from `time_utils.py`, on a wall-clock pair
`time(h, m)`: minutes since midnight. -/
def time_to_total_minutes (h m : ℕ) : ℕ := h * 60 + m

/-- `total_minutes_to_time` from `time_utils.py`: the (already rounded,
integer) input is clamped to `[0, 1440]`; `1440` maps to `00:00`; otherwise
`divmod 60`.  Returns the `(hour, minute)` pair of the `datetime.time`
value the source builds. -/
def total_minutes_to_time (total : ℤ) : ℕ × ℕ :=
  let clamped : ℤ := max 0 (min 1440 total)
  if clamped = 1440 then (0, 0)
  else (clamped.toNat / 60, clamped.toNat % 60)

/-- Decimal digit characters of a natural number, least significant last:
the embedding of Python string formatting `f"{n}"` for `n ≥ 0`. -/
def natDigits (n : ℕ) : List Char :=
  if h : n < 10 then [Nat.digitChar n]
  else natDigits (n / 10) ++ [Nat.digitChar (n % 10)]
  termination_by n
  decreasing_by exact Nat.div_lt_self (by omega) (by omega)

/-- `" ".join(parts)` from `format_timedelta`. -/
def joinSpace : List (List Char) → List Char
  | [] => []
  | [x] => x
  | x :: y :: xs => x ++ ' ' :: joinSpace (y :: xs)

/-- `format_timedelta` from `time_utils.py` with `show_seconds = False`;
the `timedelta` argument is carried as its total seconds. -/
def format_timedelta (delta_seconds : ℤ) : List Char :=
  let sign : List Char := if delta_seconds < 0 then ['-'] else []
  let ts : ℕ := delta_seconds.natAbs
  let hours := ts / 3600
  let rem := ts % 3600
  let minutes := rem / 60
  let parts : List (List Char) :=
    (if 0 < hours then [natDigits hours ++ ['h']] else []) ++
    (if 0 < minutes then [natDigits minutes ++ ['m']] else [])
  if parts = [] ∧ ts = 0 then ['0', 'm']
  else if parts = [] then
    (if 0 < ts then sign ++ ['<', '1', 'm'] else ['0', 'm'])
  else sign ++ joinSpace parts

/-- Python whitespace test used by `.strip()` and the regex class `\s`
(restricted to the whitespace characters that can occur in duration
strings). -/
def isPySpace (c : Char) : Bool :=
  c = ' ' ∨ c = '\t' ∨ c = '\n' ∨ c = '\r'

/-- `s.strip()`. -/
def pyStrip (l : List Char) : List Char :=
  ((l.dropWhile isPySpace).reverse.dropWhile isPySpace).reverse

/-- `s.lower()`. -/
def pyLower (l : List Char) : List Char := l.map Char.toLower

/-- One regex match of `(\d+(?:\.\d+)?)\s*(h|m|s)?` inside
`parse_duration_string`: integer digits, optional fractional digits, and
the optional unit letter. -/
structure DurMatch where
  intPart : List Char
  fracDigits : Option (List Char)
  unit : Option Char
  deriving Repr, DecidableEq

theorem dropWhile_len_le (p : Char → Bool) (l : List Char) :
    (l.dropWhile p).length ≤ l.length := by
  induction l with
  | nil => simp
  | cons a l ih =>
    rw [List.dropWhile_cons]
    split
    · exact Nat.le_trans ih (Nat.le_succ _)
    · simp

/-- The optional `(?:\.\d+)?` fragment: consume a dot followed by at least
one digit, else consume nothing. -/
def fracScan (l : List Char) : Option (List Char) × List Char :=
  match l with
  | [] => (none, [])
  | c :: rest =>
    if c = '.' then
      (if rest.takeWhile Char.isDigit = [] then (none, c :: rest)
       else (some (rest.takeWhile Char.isDigit), rest.dropWhile Char.isDigit))
    else (none, c :: rest)

theorem fracScan_length_le (l : List Char) : (fracScan l).2.length ≤ l.length := by
  match l with
  | [] => simp [fracScan]
  | c :: rest =>
    rw [fracScan]
    split
    · split
      · simp
      · have := dropWhile_len_le Char.isDigit rest
        simpa using Nat.le_trans this (Nat.le_succ _)
    · simp

theorem scanChainLen (c : Char) (r : List Char) (hc : c.isDigit = true) :
    (List.dropWhile isPySpace
      (fracScan (List.dropWhile Char.isDigit (c :: r))).2).length ≤ r.length := by
  have h1 : (List.dropWhile Char.isDigit (c :: r)).length ≤ r.length := by
    rw [List.dropWhile_cons, if_pos hc]
    exact dropWhile_len_le Char.isDigit r
  have h2 := fracScan_length_le (List.dropWhile Char.isDigit (c :: r))
  have h3 := dropWhile_len_le isPySpace (fracScan (List.dropWhile Char.isDigit (c :: r))).2
  omega

/-- `re.findall` of the pattern `(\d+(?:\.\d+)?)\s*(h|m|s)?` over the
processed duration string (non-matching characters are skipped; each
match needs at least one digit). -/
def findMatches : List Char → List DurMatch
  | [] => []
  | c :: r =>
    if hc : c.isDigit then
      let ds := List.takeWhile Char.isDigit (c :: r)
      let fr := fracScan (List.dropWhile Char.isDigit (c :: r))
      let r3 := List.dropWhile isPySpace fr.2
      if r3.head? = some 'h' ∨ r3.head? = some 'm' ∨ r3.head? = some 's' then
        ⟨ds, fr.1, r3.head?⟩ :: findMatches r3.tail
      else if r3 = [] then [⟨ds, fr.1, none⟩]
      else ⟨ds, fr.1, none⟩ :: findMatches r3
    else findMatches r
  termination_by l => l.length
  decreasing_by
  · have h := scanChainLen c rest hc
    have ht := List.length_tail
      (List.dropWhile isPySpace (fracScan (List.dropWhile Char.isDigit (c :: rest))).2)
    simp only [List.length_cons]
    omega
  · have h := scanChainLen c rest hc
    simp only [List.length_cons]
    omega
  · simp only [List.length_cons]
    omega

/-- Numeric value of a digit character. -/
def digitVal (c : Char) : ℕ := c.toNat - 48

/-- Decimal parse of a digit run. -/
def parseNatDigits (l : List Char) : ℕ :=
  l.foldl (fun a c => a * 10 + digitVal c) 0

/-- `float(value_str)` for one match: integer digits plus the optional
fraction. -/
def matchValue (m : DurMatch) : ℚ :=
  (parseNatDigits m.intPart : ℚ) +
    (match m.fracDigits with
     | none => 0
     | some f => (parseNatDigits f : ℚ) / 10 ^ f.length)

/-- Contribution of one match to `total_minutes`: hours scale by 60,
minutes count as is, seconds are discarded with a warning, and a bare
number counts as minutes. -/
def matchMinutes (m : DurMatch) : ℚ :=
  match m.unit with
  | some u => if u = 'h' then matchValue m * 60
              else if u = 'm' then matchValue m
              else 0
  | none => matchValue m

/-- Length of `value_str + (unit or "")` accumulated into
`processed_string_parts` for one match. -/
def processedLen (m : DurMatch) : ℕ :=
  m.intPart.length +
    (match m.fracDigits with | none => 0 | some f => 1 + f.length) +
    (match m.unit with | none => 0 | some _ => 1)

/-- A decimal `float(s)` literal parse (sign, digits, optional fraction),
used by the source only for the bare-number fallback and the
`is_just_number` probe.  Exponent/`inf`/`nan` forms are not modelled; no
claim exercises them. -/
def pyFloatParse (l : List Char) : Option ℚ :=
  let core : List Char → Option ℚ := fun s =>
    match s with
    | [] => none
    | _ =>
      let ds := s.takeWhile Char.isDigit
      let r1 := s.dropWhile Char.isDigit
      match r1 with
      | [] => if ds = [] then none else some (parseNatDigits ds)
      | '.' :: fs =>
        let fd := fs.takeWhile Char.isDigit
        if fs.dropWhile Char.isDigit = [] then
          if ds = [] ∧ fd = [] then none
          else some ((parseNatDigits ds : ℚ) + (parseNatDigits fd : ℚ) / 10 ^ fd.length)
        else none
      | _ => none
  match l with
  | '-' :: rest => (core rest).map (fun q => -q)
  | '+' :: rest => core rest
  | _ => core l

/-- `parse_duration_string` from `time_utils.py`, returning the parsed
duration in whole minutes (the `timedelta(minutes=...)` the source
builds). -/
def parse_duration_string (s : List Char) : Option ℤ :=
  let sp := pyLower (pyStrip s)
  if sp = [] then none
  else
    let ms := findMatches sp
    let total : Option ℚ :=
      if ms = [] then pyFloatParse sp
      else
        let tm : ℚ := (ms.map matchMinutes).sum
        let plen := (ms.map processedLen).sum
        let slen := (sp.filter (fun c => ¬ c = ' ')).length
        if ¬ plen = slen then
          if (pyFloatParse sp).isSome then some tm else none
        else some tm
    match total with
    | none => none
    | some t =>
      let r := pyRound t
      if r < 0 then none else some r

/-! ### Constraint solver (`src/core/constraint_solver.py`) -/

/-- `FixedEventInterval` (frozen dataclass). -/
structure FixedEventInterval where
  id : String
  start_minutes : ℤ
  end_minutes : ℤ
  deriving DecidableEq, Repr

/-- `FixedEventInterval.__post_init__`: range check, then the two
positivity checks. -/
def mkFixedEventInterval (i : String) (s e : ℤ) : Except String FixedEventInterval :=
  if ¬ (0 ≤ s ∧ s ≤ 1439 ∧ 0 ≤ e ∧ e ≤ 1440) then .error rangeMsg
  else if e ≤ s then .error orderMsg
  else if e - s ≤ 0 then .error posMsg
  else .ok ⟨i, s, e⟩
where
  rangeMsg : String := "FixedEventInterval minutes must be within a day"
  orderMsg : String := "FixedEventInterval end must be after start"
  posMsg : String := "FixedEventInterval must have positive duration"

/-- `SolverTask` (frozen dataclass); UUIDs are carried as naturals. -/
structure SolverTask where
  id : ℕ
  duration_minutes : ℤ
  priority : ℤ
  energy_level : ℤ
  earliest_start_minutes : Option ℤ
  latest_end_minutes : Option ℤ
  dependencies : List ℕ
  deriving DecidableEq, Repr

/-- `SolverTask.__post_init__`: the four `ValueError` guards, in source
order.  The last one rejects a task whose explicit window cannot hold its
duration. -/
def mkSolverTask (t : SolverTask) : Except String SolverTask :=
  if t.duration_minutes ≤ 0 then .error durMsg
  else if (match t.earliest_start_minutes with
           | some es => decide (es < 0) | none => false) then
    .error negMsg
  else if (match t.latest_end_minutes with
           | some le => decide (1440 < le) | none => false) then
    .error lateMsg
  else if (match t.earliest_start_minutes, t.latest_end_minutes with
           | some es, some le => decide (le < es + t.duration_minutes)
           | _, _ => false) then .error impossibleMsg
  else .ok t
where
  durMsg : String := "SolverTask duration must be positive"
  negMsg : String := "SolverTask earliest_start_minutes cannot be negative"
  lateMsg : String := "SolverTask latest_end_minutes cannot exceed 1440"
  impossibleMsg : String := "SolverTask constraints impossible"

/-- `SolverInput` (frozen dataclass); the energy pattern dict is an
association list hour ↦ value. -/
structure SolverInput where
  tasks : List SolverTask
  fixed_events : List FixedEventInterval
  day_start_minutes : ℤ
  day_end_minutes : ℤ
  user_energy_pattern : List (ℕ × ℚ)
  deriving DecidableEq, Repr

/-- `user_energy_pattern.get(hour, 0.5)`. -/
def userEnergy (pattern : List (ℕ × ℚ)) (hour : ℕ) : ℚ :=
  (pattern.lookup hour).getD (1/2)

/-- One entry of the solver's precomputed energy-match table
(`hourly_energy_scores`): `int(match * 100)` where
`match = 1.0 - abs(user_energy - task_energy_level / 3.0)`.
Note the source truncates with `int(...)`, it does not round. -/
def energyMatchScore (pattern : List (ℕ × ℚ)) (task_energy : ℤ) (hour : ℕ) : ℤ :=
  pyTrunc ((1 - |userEnergy pattern hour - (task_energy : ℚ) / 3|) * 100)

/-- The table entry as the claim (and spec) words it, with `round`
instead of the source's `int` truncation; kept separate so the two can be
compared. -/
def energyMatchScoreSpec (pattern : List (ℕ × ℚ)) (task_energy : ℤ) (hour : ℕ) : ℤ :=
  round ((1 - |userEnergy pattern hour - (task_energy : ℚ) / 3|) * 100)

/-- Python's `x or d` on an optional integer: both `None` and `0` are
falsy and fall back to the default. -/
def pyOrD (x : Option ℤ) (d : ℤ) : ℤ :=
  match x with
  | none => d
  | some v => if v = 0 then d else v

/-- Variable-domain computation in `ConstraintSchedulerSolver.solve`:
earliest possible start and latest possible start for one task.  Both
defaults use Python's falsy `or`: `task.earliest_start_minutes or 0`
and `task.latest_end_minutes or horizon` — so a `latest_end_minutes` of
exactly 0 falls back to the full horizon. -/
def taskWindow (si : SolverInput) (t : SolverTask) : ℤ × ℤ :=
  let earliest_possible_start := max si.day_start_minutes (pyOrD t.earliest_start_minutes 0)
  let latest_possible_end := min si.day_end_minutes (pyOrD t.latest_end_minutes si.day_end_minutes)
  (earliest_possible_start, latest_possible_end - t.duration_minutes)

/-- The variable-creation loop of `solve`: a task whose domain is empty
(`earliest_possible_start > latest_possible_start`) is skipped with a log
message (`continue`); the remaining tasks get interval variables. -/
def taskVars (si : SolverInput) : List (SolverTask × ℤ × ℤ) :=
  si.tasks.filterMap (fun t =>
    let w := taskWindow si t
    if w.2 < w.1 then none else some (t, w.1, w.2))

/-- `solve` up to the CP-SAT call: empty task list returns `[]`; all
variables dropped returns `[]`; otherwise the external engine decides
(modelled by the oracle, `none` = no OPTIMAL/FEASIBLE solution).  The
oracle's answers are `(task id, start, end)` triples in minutes. -/
def solveSkeleton (si : SolverInput)
    (oracle : List (SolverTask × ℤ × ℤ) → Option (List (ℕ × ℤ × ℤ))) :
    Option (List (ℕ × ℤ × ℤ)) :=
  if si.tasks = [] then some []
  else if taskVars si = [] then some []
  else oracle (taskVars si)

/-- The objective the source assembles: per scheduled task,
`priority * priority_weight`, `start * (-start_penalty_weight)` and, for
energy levels 1–3, `energy_score * energy_weight` where the score is the
table entry at `start div 60`.  Default weights 10/5/1. -/
def solveObjective (pattern : List (ℕ × ℚ)) (assignment : List (SolverTask × ℤ)) : ℤ :=
  (assignment.map (fun p =>
    p.1.priority * 10 + p.2 * (-1) +
      (if 1 ≤ p.1.energy_level ∧ p.1.energy_level ≤ 3 then
        energyMatchScore pattern p.1.energy_level (p.2 / 60).toNat * 5
      else 0))).sum

/-! ### Chronotype (`src/core/chronotype.py`) -/

/-- `Chronotype` enum. -/
inductive Chronotype where
  | early_bird | night_owl | intermediate | flexible | unknown
  deriving DecidableEq, Repr

/-- `ChronotypeProfile` (mutable dataclass), restricted to the fields the
claims touch. -/
structure ChronotypeProfile where
  primary_chronotype : Chronotype
  chronotype_strength : ℚ
  consistency_score : ℚ
  deriving DecidableEq, Repr

/-- `ChronotypeProfile.__post_init__`: both scores are clamped into
`[0, 1]` at construction. -/
def mkChronotypeProfile (c : Chronotype) (strength consistency : ℚ) : ChronotypeProfile :=
  ⟨c, max 0 (min 1 strength), max 0 (min 1 consistency)⟩

/-- Confidence computed by `determine_chronotype_from_sleep_data`:
`max(0.0, 1.0 - stdev / max(0.1, confidence_variance_scale))` with the
default scale 4.0.  The standard deviation argument is a square root in
the source, hence nonnegative. -/
def confidenceFromStdev (stdev : ℚ) : ℚ :=
  max 0 (1 - stdev / max (1/10) 4)

/-- `update_chronotype_profile` on one analysis result: no result, or
confidence below the threshold (default 0.6), leaves the profile
unchanged; otherwise strength becomes the new confidence and consistency
is blended `0.7·old + 0.3·new` and clamped. -/
def update_chronotype_profile (p : ChronotypeProfile)
    (analysis : Option (Chronotype × ℚ)) : ChronotypeProfile :=
  match analysis with
  | none => p
  | some (ct, confidence) =>
    if confidence < 3/5 then p
    else ⟨ct, confidence,
          max 0 (min 1 (p.consistency_score * (7/10) + confidence * (3/10)))⟩

/-- A sequence of profile updates, each from a sleep-data analysis with
the given chronotype and mid-sleep standard deviation. -/
def applyProfileUpdates (p : ChronotypeProfile) : List (Chronotype × ℚ) → ChronotypeProfile
  | [] => p
  | u :: us =>
    applyProfileUpdates
      (update_chronotype_profile p (some (u.1, confidenceFromStdev u.2))) us

/-! ### Sleep (`src/core/sleep.py`) -/

/-- `SleepMetrics` recommendation triple: ideal duration in seconds and
ideal bed/wake clock times as `(hour, minute)`. -/
structure SleepMetrics where
  ideal_duration_seconds : ℚ
  ideal_bedtime : ℕ × ℕ
  ideal_wake_time : ℕ × ℕ
  deriving DecidableEq, Repr

/-- `get_recommended_sleep_duration`: age bands, preference-scale
adjustment (invalid scale ignored with a warning), clamp into
`[max(4, min-1), min(12, max+1)]` hours.  Returns hours; `ValueError`
for an age outside `[0, 120]` (a missing age raises too). -/
def get_recommended_sleep_duration (age : Option ℤ) (sleep_need_scale : Option ℚ) :
    Except String ℚ :=
  match age with
  | none => .error typeMsg
  | some a =>
    if ¬ (0 ≤ a ∧ a ≤ 120) then .error ageMsg
    else
      let band : ℚ × ℚ :=
        if a < 18 then (8, 10)
        else if a < 26 then (7, 9)
        else if a < 65 then (7, 9)
        else (7, 8)
      let base_avg := (band.1 + band.2) / 2
      let adj : ℚ :=
        match sleep_need_scale with
        | some sc => if 0 ≤ sc ∧ sc ≤ 100 then (sc - 50) / 50 * 1 else 0
        | none => 0
      let final_h := base_avg + adj
      .ok (max (max 4 (band.1 - 1)) (min (min 12 (band.2 + 1)) final_h))
where
  typeMsg : String := "age is required"
  ageMsg : String := "Invalid age provided"

/-- Default wake times per chronotype (`DEFAULT_WAKE_TIMES`, with the
`.get` fallback `time(7, 30)` for chronotypes absent from the table). -/
def default_wake_time : Chronotype → ℕ × ℕ
  | .early_bird => (6, 30)
  | .intermediate => (7, 30)
  | .night_owl => (8, 30)
  | .unknown => (7, 30)
  | .flexible => (7, 30)

/-- Category timing adjustment in hours (`DEFAULT_CHRONOTYPE_ADJUSTMENTS`,
`.get` fallback 0). -/
def chronotype_adjustment : Chronotype → ℚ
  | .early_bird => -1
  | .night_owl => 1
  | _ => 0

/-- Time-of-day (in fractional minutes, `[0, 1440)`) of a possibly
negative or overflowing minute count: the `.time()` extraction after
`datetime` arithmetic. -/
def timeOfDay (q : ℚ) : ℚ := q - 1440 * ⌊q / 1440⌋

/-- `(hour, minute)` of a time-of-day given in fractional minutes
(seconds are truncated away by the `time` accessors). -/
def hmOfMinutes (q : ℚ) : ℕ × ℕ :=
  ((⌊timeOfDay q⌋).toNat / 60, (⌊timeOfDay q⌋).toNat % 60)

/-- `calculate_sleep_window`: duration from age band and scale, wake time
defaulted per chronotype, timing adjusted by the chronotype scale (else
the category delta), bedtime = wake − duration, all modular over the
day. -/
def calculate_sleep_window (age : Option ℤ) (chronotype : Chronotype)
    (target_wake_time : Option (ℕ × ℕ)) (sleep_need_scale chronotype_scale : Option ℚ) :
    Except String SleepMetrics :=
  match get_recommended_sleep_duration age sleep_need_scale with
  | .error e => .error e
  | .ok dur_h =>
    let wake := target_wake_time.getD (default_wake_time chronotype)
    let timing_adj_h : ℚ :=
      match chronotype_scale with
      | some sc => if 0 ≤ sc ∧ sc ≤ 100 then (sc - 50) / 50 * (3/2)
                   else chronotype_adjustment chronotype
      | none => chronotype_adjustment chronotype
    let wake_m : ℚ := (time_to_total_minutes wake.1 wake.2 : ℚ) + timing_adj_h * 60
    let bed_m : ℚ := wake_m - dur_h * 60
    .ok ⟨dur_h * 3600, hmOfMinutes bed_m, hmOfMinutes wake_m⟩

/-- `_calculate_duration_score` (default tolerance 30 min, penalty range
90 min); durations in seconds. -/
def duration_score (actual ideal : ℚ) : ℚ :=
  let diff_minutes := |actual - ideal| / 60
  if diff_minutes ≤ 30 then 100
  else max 0 (100 - (diff_minutes - 30) * (100 / 90))

/-- Wrap-around difference of two times of day in minutes. -/
def wrapDiff (a b : ℤ) : ℤ := min |a - b| (1440 - |a - b|)

/-- One half of `_calculate_timing_score` (max part 50, tolerance 30,
penalty range 90). -/
def timing_part_score (diff : ℤ) : ℚ :=
  if diff ≤ 30 then 50
  else max 0 (50 - ((diff : ℚ) - 30) * (50 / 90))

/-- `_calculate_timing_score`: bed and wake halves, each worth 50. -/
def timing_score (actual_bed actual_wake ideal_bed ideal_wake : ℤ) : ℚ :=
  timing_part_score (wrapDiff actual_bed ideal_bed) +
    timing_part_score (wrapDiff actual_wake ideal_wake)

/-- Minimum of a nonempty rational list (0 for an empty one). -/
def listMin : List ℚ → ℚ
  | [] => 0
  | [x] => x
  | x :: y :: xs => min x (listMin (y :: xs))

/-- `_calculate_physiological_score`: HR and HRV sub-scores with default
sub-weights 0.5/0.5, re-weighted to 1/0 or 0/1 when only one kind of data
is present, and 0 when none is.  HR targets 40–60 bpm with penalty ranges
10/20; HRV target 50 ms, scale factor 1. -/
def physiological_score (heart_rate_data : List ℚ) (hrv_data : List ℚ) : ℚ :=
  let has_hr := ¬ heart_rate_data = []
  let has_hrv := ¬ hrv_data = []
  if ¬ has_hr ∧ ¬ has_hrv then 0
  else
    let hr_weight : ℚ := if has_hr ∧ ¬ has_hrv then 1 else if ¬ has_hr then 0 else 1/2
    let hrv_weight : ℚ := if has_hrv ∧ ¬ has_hr then 1 else if ¬ has_hrv then 0 else 1/2
    let hr_score : ℚ :=
      if has_hr then
        let valid := heart_rate_data.filter (fun v => 0 < v)
        if valid = [] then 0
        else
          let min_hr := listMin valid
          let max_part := 100 * hr_weight
          if 40 ≤ min_hr ∧ min_hr ≤ 60 then max_part
          else if min_hr < 40 then max 0 (max_part - (40 - min_hr) * (max_part / 10))
          else max 0 (max_part - (min_hr - 60) * (max_part / 20))
      else 0
    let hrv_score : ℚ :=
      if has_hrv then
        let valid := hrv_data.filter (fun v => 0 < v)
        if valid = [] then 0
        else
          let avg := valid.sum / valid.length
          let max_part := 100 * hrv_weight
          max 0 (min max_part (max_part * (avg / 50) * 1))
      else 0
    hr_score + hrv_score

/-! ### Orchestrator (`src/core/scheduler.py`) -/

/-- The heterogeneous `duration` a `Task` may carry: a `timedelta`
(total seconds), a duration string, or a plain number of minutes. -/
inductive PyDuration where
  | td (total_seconds : ℤ)
  | str (s : List Char)
  | int (n : ℤ)
  deriving DecidableEq, Repr

/-- `Task` from `task_prioritizer.py`, restricted to the fields
`_prepare_solver_input` reads; ids are naturals, the `deadline` datetime
is carried as its minutes-from-target-day-midnight value (the source
computes `(deadline_utc - day_start_utc) // 60`). -/
structure TaskIn where
  id : ℕ
  title : String
  duration : PyDuration
  priority : ℤ
  energy_level : ℤ
  earliest_start : Option (ℕ × ℕ)
  deadline : Option ℤ
  dependencies : List ℕ
  completed : Bool
  deriving DecidableEq, Repr

/-- The duration branch of `_prepare_solver_input`: `timedelta` floors
total seconds to minutes; a string is parsed (and a falsy
`timedelta(0)` result is discarded); a number is truncated. -/
def taskDurationMinutes : PyDuration → Option ℤ
  | .td secs => some (Int.fdiv secs 60)
  | .str s =>
    (match parse_duration_string s with
     | some v => if v = 0 then none else some v
     | none => none)
  | .int n => some n

/-- `if not dur_min or dur_min <= 0: continue` — keep only positive
parsed durations. -/
def durOk (o : Option ℤ) : Option ℤ :=
  match o with
  | none => none
  | some v => if v ≤ 0 then none else some v

/-- The per-task loop of `_prepare_solver_input`.  Completed tasks and
tasks without a usable duration are skipped; a `ValueError` raised by
`SolverTask.__post_init__` escapes the whole loop (the `try` wraps the
entire method body). -/
def buildSolverTasks : List TaskIn → Except String (List SolverTask)
  | [] => .ok []
  | t :: ts =>
    if t.completed then buildSolverTasks ts
    else
      match durOk (taskDurationMinutes t.duration) with
      | none => buildSolverTasks ts
      | some dur =>
        let es := t.earliest_start.map
          (fun hm => (time_to_total_minutes hm.1 hm.2 : ℤ))
        match mkSolverTask ⟨t.id, dur, t.priority, t.energy_level, es,
                             t.deadline, t.dependencies⟩ with
        | .error e => .error e
        | .ok st => (buildSolverTasks ts).map (st :: ·)

/-- One raw fixed event `{id, start_time, end_time}` with the `HH:MM`
strings carried as parsed `(hour, minute)` pairs. -/
structure FixedEventIn where
  id : String
  start_time : ℕ × ℕ
  end_time : ℕ × ℕ
  deriving DecidableEq, Repr

/-- Fixed-event normalization in `_prepare_solver_input`: an end of
exactly `00:00` means end-of-day (1440), and an end not after the start
is coerced to `start + 1`. -/
def parseFixedEvent (e : FixedEventIn) : ℤ × ℤ :=
  (startM e, if endRaw e ≤ startM e then startM e + 1 else endRaw e)
where
  startM (e : FixedEventIn) : ℤ := time_to_total_minutes e.start_time.1 e.start_time.2
  endRaw (e : FixedEventIn) : ℤ :=
    if e.end_time = (0, 0) then 1440 else time_to_total_minutes e.end_time.1 e.end_time.2

/-- The fixed-event loop of `_prepare_solver_input`; a `ValueError` from
`FixedEventInterval.__post_init__` escapes the whole method. -/
def buildSolverEvents : List FixedEventIn → Except String (List FixedEventInterval)
  | [] => .ok []
  | e :: es =>
    let p := parseFixedEvent e
    match mkFixedEventInterval e.id p.1 p.2 with
    | .error msg => .error msg
    | .ok fe => (buildSolverEvents es).map (fe :: ·)

/-- Sleep injection: an intra-day window becomes one `sleep` event, a
midnight-wrapping window becomes `sleep_prev`/`sleep_next`. -/
def sleepEvents (sleep : SleepMetrics) : Except String (List FixedEventInterval) :=
  let sb : ℤ := time_to_total_minutes sleep.ideal_bedtime.1 sleep.ideal_bedtime.2
  let sw : ℤ := time_to_total_minutes sleep.ideal_wake_time.1 sleep.ideal_wake_time.2
  if sb < sw then
    match mkFixedEventInterval idSleep sb sw with
    | .error m => .error m
    | .ok e => .ok [e]
  else
    match mkFixedEventInterval idSleepPrev sb 1440 with
    | .error m => .error m
    | .ok p =>
      match mkFixedEventInterval idSleepNext 0 sw with
      | .error m => .error m
      | .ok n => .ok [p, n]
where
  idSleep : String := "sleep"
  idSleepPrev : String := "sleep_prev"
  idSleepNext : String := "sleep_next"

/-- `TaskPrioritizer.get_energy_pattern` with the default flat pattern:
0.5 everywhere, +0.1 (capped at 1) on hours 6–10 for early birds and
17–21 for night owls. -/
def get_energy_pattern (c : Chronotype) : List (ℕ × ℚ) :=
  (List.range 24).map (fun h =>
    (h, if c = .early_bird ∧ 6 ≤ h ∧ h ≤ 10 then min 1 (1/2 + 1/10)
        else if c = .night_owl ∧ 17 ≤ h ∧ h ≤ 21 then min 1 (1/2 + 1/10)
        else 1/2))

/-- `activity_goals` entry from preferences. -/
structure ActivityGoal where
  name : String
  duration_minutes : ℤ
  frequency : List Char
  preferred_time : List String
  deriving DecidableEq, Repr

/-- Recognized preferences; the `HH:MM` meal-time strings are carried as
already-parsed minute values (a missing or unparsable key falls back to
the same default the source uses). -/
structure Preferences where
  preferred_wake_time : Option (ℕ × ℕ)
  sleep_need_scale : Option ℚ
  chronotype_scale : Option ℚ
  breakfast_minutes : Option ℕ
  breakfast_duration : Option ℤ
  lunch_minutes : Option ℕ
  lunch_duration : Option ℤ
  dinner_minutes : Option ℕ
  dinner_duration : Option ℤ
  morning_routine_duration : Option ℤ
  evening_routine_duration : Option ℤ
  activity_goals : List ActivityGoal
  deriving DecidableEq, Repr

/-- Preferences with every key absent. -/
def defaultPreferences : Preferences :=
  ⟨none, none, none, none, none, none, none, none, none, none, none, []⟩

/-- `ScheduleInputData`, restricted to what the embedded pipeline reads.
`weekday` is `target_date.strftime("%a").lower()`. -/
structure ScheduleInputData where
  user_id : ℕ
  tasks : List TaskIn
  fixed_events_input : List FixedEventIn
  preferences : Preferences
  weekday : List Char
  age : Option ℤ
  meq_score : Option ℤ
  deriving DecidableEq, Repr

/-- `_prepare_profile`: MEQ banded lookup when a score is present and in
range (`≤ 41` night owl, `42–58` intermediate, `≥ 59` early bird); an
invalid score raises inside the `try` and falls back to UNKNOWN. -/
def prepare_profile (meq_score : Option ℤ) : Chronotype :=
  match meq_score with
  | some s =>
    if 16 ≤ s ∧ s ≤ 86 then
      (if s ≤ 41 then .night_owl else if s ≤ 58 then .intermediate else .early_bird)
    else .unknown
  | none => .unknown

/-- `_calculate_sleep`: delegate to `calculate_sleep_window`; any
exception yields the fixed fallback window 8 h, 23:00–07:00. -/
def calculate_sleep (chronotype : Chronotype) (input : ScheduleInputData) : SleepMetrics :=
  match calculate_sleep_window input.age chronotype
      input.preferences.preferred_wake_time
      input.preferences.sleep_need_scale input.preferences.chronotype_scale with
  | .ok m => m
  | .error _ => ⟨8 * 3600, (23, 0), (7, 0)⟩

/-- `_prepare_solver_input`: solver tasks, normalized fixed events plus
the sleep block(s), day window `[0, 1440]`, and the energy pattern;
`None` when any step raised. -/
def prepare_solver_input (input : ScheduleInputData) (chronotype : Chronotype)
    (sleep : SleepMetrics) : Option SolverInput :=
  match buildSolverTasks input.tasks with
  | .error _ => none
  | .ok sts =>
    match buildSolverEvents input.fixed_events_input with
    | .error _ => none
    | .ok evs =>
      match sleepEvents sleep with
      | .error _ => none
      | .ok sevs =>
        some ⟨sts, evs ++ sevs, 0, 1440, get_energy_pattern chronotype⟩

/-- Item/block kinds appearing in the composed schedule. -/
inductive ItemType where
  | fixed_event | task | meal | routine | activity
  | free_time | relaxation | short_break | quick_break
  deriving DecidableEq, Repr

/-- The metadata dict attached to one block.  `name_lower` is the
lower-cased display name (the source builds `id.replace("_"," ").title()`
and later lowercases it for keyword checks, so only the lower-cased form
matters); `duration` is the `duration_minutes` value stored in the
dict. -/
structure BlockMeta where
  btype : ItemType
  name_lower : List Char
  event_id : Option String
  task_id : Option ℕ
  duration : ℤ
  deriving DecidableEq, Repr

/-- An emitted schedule item: the dict's type/name plus its times in
minutes (the `HH:MM` strings in the dict are derived from these). -/
structure ItemOut where
  btype : ItemType
  name_lower : List Char
  event_id : Option String
  task_id : Option ℕ
  start_minutes : ℤ
  end_minutes : ℤ
  duration_minutes : ℤ
  deriving DecidableEq, Repr

/-- `id.replace("_", " ")`. -/
def replaceUnderscore (l : List Char) : List Char :=
  l.map (fun c => if c = '_' then ' ' else c)

/-- Substring test (`kw in s`). -/
def kwContains (kw : List Char) : List Char → Bool
  | [] => kw.isPrefixOf ([] : List Char)
  | c :: r => kw.isPrefixOf (c :: r) || kwContains kw r

/-- The round trip a solver time value takes through
`total_minutes_to_time` and back through `time_to_total_minutes` when
`_process_core_schedule` rebuilds minutes from the returned `time`
objects (1440 comes back as 0). -/
def taskBlockMinutes (v : ℤ) : ℤ :=
  time_to_total_minutes (total_minutes_to_time v).1 (total_minutes_to_time v).2

/-- Conflict-resolution priority (`priority_order`). -/
def typePriority : ItemType → ℤ
  | .fixed_event => 5
  | .task => 4
  | .meal => 3
  | .routine => 2
  | .activity => 1
  | _ => 0

/-- One block: `(start, end, meta)`. -/
abbrev SchedBlock : Type := ℤ × ℤ × BlockMeta

/-- Stable insert for sorting by start minute; the embedding of Python's
stable `blocks.sort(key=lambda x: x[0])`. -/
def insertByStart (b : SchedBlock) : List SchedBlock → List SchedBlock
  | [] => [b]
  | y :: ys => if y.1 ≤ b.1 then y :: insertByStart b ys else b :: y :: ys

/-- Stable sort by start minute. -/
def sortByStart (l : List SchedBlock) : List SchedBlock :=
  l.foldl (fun acc b => insertByStart b acc) []

/-- The inner scan of the conflict-resolution loop: find the first
already-kept block that overlaps the candidate; replace it if the
candidate's type priority is strictly higher, else drop the candidate;
append when nothing overlaps. -/
def insertResolved (acc : List SchedBlock) (b : SchedBlock) : List SchedBlock :=
  match findSplit acc with
  | none => acc ++ [b]
  | some (front, ex, back) =>
    if typePriority ex.2.2.btype < typePriority b.2.2.btype then front ++ b :: back
    else acc
where
  findSplit : List SchedBlock → Option (List SchedBlock × SchedBlock × List SchedBlock)
    | [] => none
    | x :: xs =>
      if max b.1 x.1 < min b.2.1 x.2.1 then some ([], x, xs)
      else (findSplit xs).map (fun t => (x :: t.1, t.2.1, t.2.2))

/-- The whole conflict-resolution pass (`non_overlapping_blocks`). -/
def resolveOverlaps (blocks : List SchedBlock) : List SchedBlock :=
  blocks.foldl insertResolved []

/-- Break classification for an interior gap (`gap_duration` minutes). -/
def gapItem (s e : ℤ) : ItemOut :=
  let d := e - s
  if 120 ≤ d then ⟨.free_time, nameFree, none, none, s, e, d⟩
  else if 45 ≤ d then ⟨.relaxation, nameRelax, none, none, s, e, d⟩
  else if 15 ≤ d then ⟨.short_break, nameShort, none, none, s, e, d⟩
  else ⟨.quick_break, nameQuick, none, none, s, e, d⟩
where
  nameFree : List Char := "free time".toList
  nameRelax : List Char := "relaxation".toList
  nameShort : List Char := "short break".toList
  nameQuick : List Char := "quick break".toList

/-- The gap-filling fold: emit a break for every gap before a block, then
the block itself; `prev_end` advances to `max prev_end end`. -/
def fillGaps : List SchedBlock → ℤ → List ItemOut
  | [], _ => []
  | (s, e, m) :: bs, prev_end =>
    (if prev_end < s then [gapItem prev_end s] else []) ++
      ⟨m.btype, m.name_lower, m.event_id, m.task_id, s, e, m.duration⟩ ::
        fillGaps bs (max prev_end e)

/-- Trailing end-of-day filler: a gap to 1440 becomes FREE, or QUICK
BREAK when at most 30 minutes. -/
def trailingItems (prev_end : ℤ) : List ItemOut :=
  if prev_end < 1440 then
    let d := 1440 - prev_end
    if d ≤ 30 then [⟨.quick_break, "quick break".toList, none, none, prev_end, 1440, d⟩]
    else [⟨.free_time, "free time".toList, none, none, prev_end, 1440, d⟩]
  else []

/-- Final `prev_end` after walking the resolved blocks. -/
def finalPrevEnd (blocks : List SchedBlock) : ℤ :=
  blocks.foldl (fun p b => max p b.2.1) 0

/-- `s.split(",")`. -/
def splitComma (l : List Char) : List (List Char) :=
  match l with
  | [] => [[]]
  | c :: r =>
    let rest := splitComma r
    if c = ',' then [] :: rest
    else match rest with
         | [] => [[c]]
         | x :: xs => (c :: x) :: xs

/-- The weekday test for one activity goal: `daily`, a comma-separated
weekday list containing today, or a frequency string starting with the
three-letter day. -/
def activityToday (weekday : List Char) (frequency : List Char) : Bool :=
  frequency = "daily".toList ∨ (splitComma frequency).contains weekday ∨
    (weekday.take 3).isPrefixOf frequency

/-- Start minute chosen for an activity from its preferred times
(checked in source order: morning, evening, afternoon, before_sleep,
default evening). -/
def activityStart (wake_time_minutes morning_routine_duration evening_routine_start : ℤ)
    (g : ActivityGoal) : ℤ :=
  if g.preferred_time.contains morningKey then
    wake_time_minutes + morning_routine_duration + 30
  else if g.preferred_time.contains eveningKey then 1080
  else if g.preferred_time.contains afternoonKey then 900
  else if g.preferred_time.contains beforeSleepKey then
    evening_routine_start - g.duration_minutes - 30
  else 1080
where
  morningKey : String := "morning"
  eveningKey : String := "evening"
  afternoonKey : String := "afternoon"
  beforeSleepKey : String := "before_sleep"

/-- `_process_core_schedule`: rebuild the fixed-event and task blocks,
add routines, meals (unless a fixed event already names one), and
activities, sort, resolve conflicts by type priority, and fill the gaps
with typed breaks. -/
def process_core_schedule (core_schedule : List (ℕ × ℤ × ℤ))
    (input : ScheduleInputData) (sleep : SleepMetrics) : List ItemOut :=
  let chronotype := prepare_profile input.meq_score
  let fixedBlocks : List SchedBlock :=
    match prepare_solver_input input chronotype sleep with
    | some si => si.fixed_events.map (fun fe =>
        (fe.start_minutes, fe.end_minutes,
         ⟨.fixed_event, pyLower (replaceUnderscore fe.id.toList), some fe.id, none,
          fe.end_minutes - fe.start_minutes⟩))
    | none => []
  let taskBlocks : List SchedBlock :=
    core_schedule.map (fun info =>
      let s := taskBlockMinutes info.2.1
      let e := taskBlockMinutes info.2.2
      (s, e, ⟨.task, taskTitleLower info.1, none, some info.1, e - s⟩))
  let blocks0 := sortByStart (fixedBlocks ++ taskBlocks)
  let prefs := input.preferences
  let breakfast_minutes : ℤ := (prefs.breakfast_minutes.map (Int.ofNat)).getD 450
  let breakfast_duration := prefs.breakfast_duration.getD 20
  let lunch_minutes : ℤ := (prefs.lunch_minutes.map (Int.ofNat)).getD 750
  let lunch_duration := prefs.lunch_duration.getD 45
  let dinner_minutes : ℤ := (prefs.dinner_minutes.map (Int.ofNat)).getD 1140
  let dinner_duration := prefs.dinner_duration.getD 30
  let morning_routine_duration := prefs.morning_routine_duration.getD 30
  let evening_routine_duration := prefs.evening_routine_duration.getD 45
  let wake_time_minutes : ℤ :=
    time_to_total_minutes sleep.ideal_wake_time.1 sleep.ideal_wake_time.2
  let bedtime_minutes : ℤ :=
    time_to_total_minutes sleep.ideal_bedtime.1 sleep.ideal_bedtime.2
  let morning_routine_start := wake_time_minutes
  let morning_routine_end := morning_routine_start + morning_routine_duration
  let evening_routine_start := max 0 (bedtime_minutes - evening_routine_duration)
  let evening_routine_end := bedtime_minutes
  let blocks1 := blocks0 ++
    [(morning_routine_start, morning_routine_end,
      ⟨.routine, "morning routine".toList, none, none, morning_routine_duration⟩),
     (evening_routine_start, evening_routine_end,
      ⟨.routine, "evening routine".toList, none, none, evening_routine_duration⟩)]
  let flags := blocks1.foldl (fun (f : Bool × Bool × Bool) b =>
    if b.2.2.btype = .fixed_event then
      (if kwContains "breakfast".toList b.2.2.name_lower ∨
          kwContains breakfastPl b.2.2.name_lower then (true, f.2.1, f.2.2)
       else if kwContains "lunch".toList b.2.2.name_lower ∨
          kwContains lunchPl b.2.2.name_lower then (f.1, true, f.2.2)
       else if kwContains "dinner".toList b.2.2.name_lower ∨
          kwContains dinnerPl b.2.2.name_lower then (f.1, f.2.1, true)
       else f)
    else f) (false, false, false)
  let blocks2 := blocks1 ++
    (if flags.1 then [] else
      [(breakfast_minutes, breakfast_minutes + breakfast_duration,
        ⟨.meal, "breakfast".toList, none, none, breakfast_duration⟩)]) ++
    (if flags.2.1 then [] else
      [(lunch_minutes, lunch_minutes + lunch_duration,
        ⟨.meal, "lunch".toList, none, none, lunch_duration⟩)]) ++
    (if flags.2.2 then [] else
      [(dinner_minutes, dinner_minutes + dinner_duration,
        ⟨.meal, "dinner".toList, none, none, dinner_duration⟩)])
  let blocks3 := blocks2 ++
    (prefs.activity_goals.filterMap (fun g =>
      if activityToday input.weekday g.frequency then
        let s := activityStart wake_time_minutes morning_routine_duration
          evening_routine_start g
        some (s, s + g.duration_minutes,
          ⟨.activity, g.name.toList.map Char.toLower, none, none, g.duration_minutes⟩)
      else none))
  let resolved := sortByStart (resolveOverlaps (sortByStart blocks3))
  fillGaps resolved 0 ++ trailingItems (finalPrevEnd resolved)
where
  breakfastPl : List Char := ['ś', 'n', 'i', 'a', 'd', 'a', 'n', 'i', 'e']
  lunchPl : List Char := ['o', 'b', 'i', 'a', 'd']
  dinnerPl : List Char := ['k', 'o', 'l', 'a', 'c', 'j', 'a']
  taskTitleLower (_ : ℕ) : List Char := "task".toList

/-- Value stored in the metrics dict. -/
inductive MetricVal where
  | num (q : ℚ)
  | str (s : String)
  deriving DecidableEq, Repr

/-- `round(x, 1)` (banker's, one decimal). -/
def pyRound1 (q : ℚ) : ℚ := (pyRound (q * 10) : ℚ) / 10

/-- `_calculate_metrics`. -/
def calculate_metrics (items : List ItemOut) (tasks : List TaskIn) :
    List (String × MetricVal) :=
  let dsum : (ItemOut → Bool) → ℤ := fun p =>
    ((items.filter p).map (fun i => i.duration_minutes)).sum
  let total_task := dsum (fun i => i.btype = .task)
  let total_break := dsum (fun i =>
    i.btype = .quick_break ∨ i.btype = .short_break ∨
      i.btype = .relaxation ∨ i.btype = .free_time)
  let total_fixed := dsum (fun i => i.btype = .fixed_event)
  let total_sleep := dsum (fun i => i.btype = .fixed_event ∧
    kwContains "sleep".toList ((i.event_id.getD emptyId).toList))
  let total_meal := dsum (fun i => i.btype = .meal)
  let total_routine := dsum (fun i => i.btype = .routine)
  let total_activity := dsum (fun i => i.btype = .activity)
  let scheduled_ids := ((items.filter (fun i => i.btype = .task)).filterMap
    (fun i => i.task_id)).dedup
  let original_ids := ((tasks.filter (fun t => ¬ t.completed)).map
    (fun t => t.id)).dedup
  let unsch := (original_ids.filter (fun i => ¬ scheduled_ids.contains i)).length
  let total_productive := total_task + total_activity
  let total_personal := total_meal + total_routine
  let total_rest := total_break + total_sleep
  [(keyTask, .num total_task), (keyBreak, .num total_break),
   (keyFixed, .num total_fixed), (keySleep, .num total_sleep),
   (keyMeal, .num total_meal), (keyRoutine, .num total_routine),
   (keyActivity, .num total_activity), (keyProductive, .num total_productive),
   (keyPersonal, .num total_personal), (keyRest, .num total_rest),
   (keyUnsch, .num unsch),
   (keyPct, .num (if original_ids = [] then 100
     else (scheduled_ids.length : ℚ) / (original_ids.length : ℚ) * 100)),
   (keyWlb, .num (pyRound1 ((total_personal : ℚ) /
     (max 1 total_productive : ℚ) * 100)))]
where
  emptyId : String := ""
  keyTask : String := "total_task_minutes"
  keyBreak : String := "total_break_minutes"
  keyFixed : String := "total_fixed_minutes"
  keySleep : String := "total_sleep_minutes"
  keyMeal : String := "total_meal_minutes"
  keyRoutine : String := "total_routine_minutes"
  keyActivity : String := "total_activity_minutes"
  keyProductive : String := "total_productive_minutes"
  keyPersonal : String := "total_personal_minutes"
  keyRest : String := "total_rest_minutes"
  keyUnsch : String := "unscheduled_tasks"
  keyPct : String := "task_completion_pct"
  keyWlb : String := "work_life_balance"

/-- `GeneratedSchedule`, restricted to the fields the claims touch
(`schedule_id`/timestamps omitted). -/
structure GeneratedSchedule where
  user_id : ℕ
  scheduled_items : List ItemOut
  metrics : List (String × MetricVal)
  warnings : List String
  deriving DecidableEq, Repr

/-- `_create_empty`: empty item list, `{"status": "failed"}`, and the
error message appended to the warnings. -/
def create_empty (input : ScheduleInputData) (warnings : List String)
    (error_msg : String) : GeneratedSchedule :=
  ⟨input.user_id, [], [(keyStatus, .str statusFailed)], warnings ++ [error_msg]⟩
where
  keyStatus : String := "status"
  statusFailed : String := "failed"

/-- `generate_schedule`: the top-level orchestration.  The constraint
solver and the optional LLM refinement are external and enter as the
`oracle` and `llm` parameters (an LLM exception is an `error` value and
lands in the top-level `except` fallback, like every other raised
exception). -/
def generate_schedule (input : ScheduleInputData)
    (oracle : List (SolverTask × ℤ × ℤ) → Option (List (ℕ × ℤ × ℤ)))
    (llm_enabled : Bool)
    (llm : Except String (List ItemOut × List (String × MetricVal))) :
    GeneratedSchedule :=
  let chronotype := prepare_profile input.meq_score
  let sleep := calculate_sleep chronotype input
  match prepare_solver_input input chronotype sleep with
  | none => create_empty input [] msgPrep
  | some si =>
    match solveSkeleton si oracle with
    | none => create_empty input [msgNoCore] msgSolver
    | some core =>
      if llm_enabled then
        match llm with
        | .ok r => ⟨input.user_id, r.1, r.2, []⟩
        | .error e => create_empty input [] e
      else
        let items := process_core_schedule core input sleep
        ⟨input.user_id, items, calculate_metrics items input.tasks, []⟩
where
  msgPrep : String := "Blad przygotowania danych dla solvera."
  msgNoCore : String := "Brak mozliwego harmonogramu core."
  msgSolver : String := "Constraint solver nie powiodl sie."

/-- The tiling property exactly as claim C1 words it: sorted by start,
the items' minute intervals cover `[0, 1440]` with the first start at 0,
the last end at 1440, and each start equal to the previous end. -/
def tilesDay (items : List ItemOut) : Bool :=
  let sorted := (items.map (fun i => (i.start_minutes, i.end_minutes,
    (⟨i.btype, i.name_lower, i.event_id, i.task_id, i.duration_minutes⟩ : BlockMeta)))).foldl
    (fun acc b => insertByStart b acc) []
  chainFrom 0 sorted
where
  chainFrom : ℤ → List SchedBlock → Bool
    | p, [] => p = 1440
    | p, b :: bs => b.1 = p && chainFrom b.2.1 bs

/-- `analyze_sleep_quality` reduced to its score: validation guard
(`sleep_end` must be after `sleep_start`, carried as a positive actual
duration), component scores combined with the default weights
0.4/0.3/0.3, and the final clamp into `[0, 100]`. -/
def analyze_sleep_quality (ideal : SleepMetrics)
    (actual_duration_seconds : ℚ) (actual_bed actual_wake : ℤ)
    (heart_rate_data hrv_data : List ℚ) : Except String ℚ :=
  if actual_duration_seconds ≤ 0 then .error endMsg
  else
    let ds := duration_score actual_duration_seconds ideal.ideal_duration_seconds
    let ts := timing_score actual_bed actual_wake
      (time_to_total_minutes ideal.ideal_bedtime.1 ideal.ideal_bedtime.2)
      (time_to_total_minutes ideal.ideal_wake_time.1 ideal.ideal_wake_time.2)
    let ps := physiological_score heart_rate_data hrv_data
    .ok (max 0 (min 100 (ds * (2/5) + ts * (3/10) + ps * (3/10))))
where
  endMsg : String := "Sleep end time must be after sleep start time"

deriving instance DecidableEq for Except

/-! ## Shared helper lemmas -/

theorem pyTrunc_of_nonneg {q : ℚ} (h : 0 ≤ q) : pyTrunc q = ⌊q⌋ := by
  unfold pyTrunc
  exact if_pos h

theorem lookup_val_mem {l : List (ℕ × ℚ)} {k : ℕ} {v : ℚ}
    (h : l.lookup k = some v) : ∃ k', (k', v) ∈ l := by
  induction l with
  | nil => simp [List.lookup] at h
  | cons a l ih =>
    rw [List.lookup] at h
    by_cases hk : k = a.1
    · refine ⟨a.1, ?_⟩
      simp [hk] at h
      simp [← h]
    · have : (k == a.1) = false := by simp [hk]
      rw [this] at h
      obtain ⟨k', hk'⟩ := ih h
      exact ⟨k', List.mem_cons_of_mem _ hk'⟩

theorem userEnergy_bounds (pattern : List (ℕ × ℚ)) (h : ℕ)
    (hp : ∀ p ∈ pattern, 0 ≤ p.2 ∧ p.2 ≤ 1) :
    0 ≤ userEnergy pattern h ∧ userEnergy pattern h ≤ 1 := by
  unfold userEnergy
  cases hl : pattern.lookup h with
  | none => norm_num
  | some v =>
    obtain ⟨k', hm⟩ := lookup_val_mem hl
    simpa using hp (k', v) hm

/-! ## C5 — fixed-event normalization -/

/-- Identifier used by the C5 counterexample event. -/
def c5EventId : String := "meeting"

/-- C5, counterexample: the input fixed event `start 10:00, end 09:00`
(inverted) is not rejected; `_prepare_solver_input` coerces its end to
`start + 1` and schedules the one-minute event. -/
theorem c5_inverted_event_is_placed :
    parseFixedEvent ⟨c5EventId, (10, 0), (9, 0)⟩ = (600, 601) ∧
    buildSolverEvents [⟨c5EventId, (10, 0), (9, 0)⟩] = .ok [⟨c5EventId, 600, 601⟩] :=
  ⟨rfl, rfl⟩

/-- C5, amended: an event ending exactly at 00:00 is read as end-of-day
1440; an event whose parsed end is not after its start is coerced to a
one-minute event `[start, start+1)` and accepted (never rejected); a
well-ordered event keeps its parsed end. -/
theorem c5_event_normalization (e : FixedEventIn)
    (hs1 : e.start_time.1 ≤ 23) (hs2 : e.start_time.2 ≤ 59)
    (he1 : e.end_time.1 ≤ 23) (he2 : e.end_time.2 ≤ 59) :
    ((parseFixedEvent e).1 = (time_to_total_minutes e.start_time.1 e.start_time.2 : ℤ)) ∧
    (e.end_time = (0, 0) → (parseFixedEvent e).2 = 1440) ∧
    (¬ e.end_time = (0, 0) →
      ((time_to_total_minutes e.end_time.1 e.end_time.2 : ℤ) ≤ (parseFixedEvent e).1 →
        (parseFixedEvent e).2 = (parseFixedEvent e).1 + 1) ∧
      ((parseFixedEvent e).1 < (time_to_total_minutes e.end_time.1 e.end_time.2 : ℤ) →
        (parseFixedEvent e).2 = (time_to_total_minutes e.end_time.1 e.end_time.2 : ℤ))) ∧
    ((mkFixedEventInterval e.id (parseFixedEvent e).1 (parseFixedEvent e).2).isOk = true) := by
  have hsm : (time_to_total_minutes e.start_time.1 e.start_time.2 : ℤ) ≤ 1439 := by
    unfold time_to_total_minutes
    push_cast
    omega
  have hsm0 : (0 : ℤ) ≤ (time_to_total_minutes e.start_time.1 e.start_time.2 : ℤ) := by
    positivity
  have hem0 : (0 : ℤ) ≤ (time_to_total_minutes e.end_time.1 e.end_time.2 : ℤ) := by
    positivity
  have hem2 : (time_to_total_minutes e.end_time.1 e.end_time.2 : ℤ) ≤ 1439 := by
    unfold time_to_total_minutes
    push_cast
    omega
  have hstart : parseFixedEvent.startM e =
      (time_to_total_minutes e.start_time.1 e.start_time.2 : ℤ) := rfl
  have hfst : (parseFixedEvent e).1 = parseFixedEvent.startM e := rfl
  have hmk : ∀ s t : ℤ, 0 ≤ s → s ≤ 1439 → 0 ≤ t → t ≤ 1440 → s < t →
      (mkFixedEventInterval e.id s t).isOk = true := by
    intro s t u1 u2 u3 u4 u5
    unfold mkFixedEventInterval
    split_ifs with g1 g2 g3 <;> first | rfl | omega
  by_cases h1 : e.end_time = (0, 0)
  · have hraw : parseFixedEvent.endRaw e = 1440 := by
      unfold parseFixedEvent.endRaw
      rw [if_pos h1]
    have hsnd : (parseFixedEvent e).2 = 1440 := by
      show (if parseFixedEvent.endRaw e ≤ parseFixedEvent.startM e then
        parseFixedEvent.startM e + 1 else parseFixedEvent.endRaw e) = 1440
      rw [hraw, if_neg (by omega)]
    exact ⟨hfst.trans hstart, fun _ => hsnd, fun hc => absurd h1 hc,
      by rw [hfst, hstart, hsnd]; exact hmk _ _ (by omega) (by omega) (by omega) (by omega) (by omega)⟩
  · have hraw : parseFixedEvent.endRaw e =
        (time_to_total_minutes e.end_time.1 e.end_time.2 : ℤ) := by
      unfold parseFixedEvent.endRaw
      rw [if_neg h1]
    by_cases h2 : (time_to_total_minutes e.end_time.1 e.end_time.2 : ℤ) ≤
        (time_to_total_minutes e.start_time.1 e.start_time.2 : ℤ)
    · have hsnd : (parseFixedEvent e).2 = parseFixedEvent.startM e + 1 := by
        show (if parseFixedEvent.endRaw e ≤ parseFixedEvent.startM e then
          parseFixedEvent.startM e + 1 else parseFixedEvent.endRaw e) = _
        rw [hraw, hstart, if_pos h2]
      refine ⟨hfst.trans hstart, fun hc => absurd hc h1,
        fun _ => ⟨fun _ => by rw [hsnd, hfst], fun hlt => by rw [hfst, hstart] at hlt; omega⟩, ?_⟩
      rw [hfst, hstart, hsnd, hstart]
      exact hmk _ _ (by omega) (by omega) (by omega) (by omega) (by omega)
    · have hsnd : (parseFixedEvent e).2 =
          (time_to_total_minutes e.end_time.1 e.end_time.2 : ℤ) := by
        show (if parseFixedEvent.endRaw e ≤ parseFixedEvent.startM e then
          parseFixedEvent.startM e + 1 else parseFixedEvent.endRaw e) = _
        rw [hraw, hstart, if_neg h2]
      refine ⟨hfst.trans hstart, fun hc => absurd hc h1,
        fun _ => ⟨fun hc => by rw [hfst, hstart] at hc; omega, fun _ => hsnd⟩, ?_⟩
      rw [hfst, hstart, hsnd]
      exact hmk _ _ (by omega) (by omega) (by omega) (by omega) (by omega)

/-- C5, witness: the amended statement applied to the event
`start 14:30, end 13:00`. -/
theorem c5_event_normalization_witness :
    ((parseFixedEvent ⟨c5EventId, (14, 30), (13, 0)⟩).2 =
      (parseFixedEvent ⟨c5EventId, (14, 30), (13, 0)⟩).1 + 1) ∧
    ((mkFixedEventInterval c5EventId (parseFixedEvent ⟨c5EventId, (14, 30), (13, 0)⟩).1
        (parseFixedEvent ⟨c5EventId, (14, 30), (13, 0)⟩).2).isOk = true) :=
  have h := c5_event_normalization ⟨c5EventId, (14, 30), (13, 0)⟩
    (by decide) (by decide) (by decide) (by decide)
  ⟨(h.2.2.1 (by decide)).1 (by decide), h.2.2.2⟩

/-! ## C7 — minutes-to-time on 1440 and negatives -/

/-- C7, counterexample: a negative input is not rejected —
`total_minutes_to_time(-10)` returns the time 00:00 (the source clamps
into `[0, 1440]`; its own example calls this out). -/
theorem c7_negative_returns_midnight : total_minutes_to_time (-10) = (0, 0) := by
  decide

/-- C7, amended: 1440 maps to 00:00, and every negative input is clamped
to 0 and returns the time 00:00 (with a warning) instead of being
rejected. -/
theorem c7_clamping (t : ℤ) (ht : t < 0) :
    total_minutes_to_time 1440 = (0, 0) ∧ total_minutes_to_time t = (0, 0) := by
  refine ⟨by decide, ?_⟩
  unfold total_minutes_to_time
  have h1 : min 1440 t = t := min_eq_right (by omega)
  have h2 : max 0 t = 0 := max_eq_left (by omega)
  rw [h1, h2]
  decide

/-- C7, witness: the amended statement at −7. -/
theorem c7_clamping_witness :
    total_minutes_to_time 1440 = (0, 0) ∧ total_minutes_to_time (-7) = (0, 0) :=
  c7_clamping (-7) (by decide)

/-! ## C8 — the energy-match table -/

/-- C8, counterexample: for user energy 0.8 at hour 8 and task energy 2
the source's table holds `int(86.66…) = 86`, while the claimed
`round(100·(1−|0.8−2/3|))` is 87. -/
theorem c8_table_truncates_not_rounds :
    energyMatchScore [(8, 4/5)] 2 8 = 86 ∧
    energyMatchScoreSpec [(8, 4/5)] 2 8 = 87 := by
  exact ⟨by decide, by decide⟩

/-- C8, amended: with a well-formed energy pattern (values in `[0, 1]`)
and a task energy level in 1–3, every table entry is the floor (Python
`int` truncation) of `100·(1−|u−e/3|)`, lies in `[0, 100]` (so the
solver's `energy_score` variable bounds are consistent), differs from
the claimed rounded value by at most one, uses the default 0.5 for an
hour absent from the pattern, and enters the objective weighted by 5 at
the task's start hour `start div 60`. -/
theorem c8_energy_table (pattern : List (ℕ × ℚ)) (e : ℤ) (h : ℕ)
    (hp : ∀ p ∈ pattern, 0 ≤ p.2 ∧ p.2 ≤ 1) (he1 : 1 ≤ e) (he3 : e ≤ 3) :
    (0 ≤ energyMatchScore pattern e h ∧ energyMatchScore pattern e h ≤ 100) ∧
    (energyMatchScoreSpec pattern e h = energyMatchScore pattern e h ∨
      energyMatchScoreSpec pattern e h = energyMatchScore pattern e h + 1) ∧
    (pattern.lookup h = none → userEnergy pattern h = 1/2) ∧
    (∀ t s, solveObjective pattern [(t, s)] = t.priority * 10 - s +
      (if 1 ≤ t.energy_level ∧ t.energy_level ≤ 3 then
        energyMatchScore pattern t.energy_level (s / 60).toNat * 5 else 0)) := by
  obtain ⟨hu0, hu1⟩ := userEnergy_bounds pattern h hp
  have he3q : ((e : ℚ)) / 3 ≤ 1 := by
    rw [div_le_one (by norm_num)]
    exact_mod_cast he3
  have he1q : (1 : ℚ) / 3 ≤ (e : ℚ) / 3 := by
    apply div_le_div_of_nonneg_right _ (by norm_num)
    · exact_mod_cast he1
  have habs : |userEnergy pattern h - (e : ℚ) / 3| ≤ 1 := by
    rw [abs_le]
    constructor <;> linarith
  have habs0 : 0 ≤ |userEnergy pattern h - (e : ℚ) / 3| := abs_nonneg _
  have hq0 : 0 ≤ (1 - |userEnergy pattern h - (e : ℚ) / 3|) * 100 := by nlinarith
  have hq100 : (1 - |userEnergy pattern h - (e : ℚ) / 3|) * 100 ≤ 100 := by nlinarith
  have hfl : energyMatchScore pattern e h =
      ⌊(1 - |userEnergy pattern h - (e : ℚ) / 3|) * 100⌋ := by
    unfold energyMatchScore
    exact pyTrunc_of_nonneg hq0
  refine ⟨⟨?_, ?_⟩, ?_, ?_, ?_⟩
  · rw [hfl]
    exact Int.floor_nonneg.mpr hq0
  · rw [hfl]
    calc ⌊(1 - |userEnergy pattern h - (e : ℚ) / 3|) * 100⌋
        ≤ ⌊(100 : ℚ)⌋ := Int.floor_le_floor hq100
      _ = 100 := by norm_num
  · unfold energyMatchScoreSpec
    rw [hfl, round_eq]
    have hlo : ⌊(1 - |userEnergy pattern h - (e : ℚ) / 3|) * 100⌋ ≤
        ⌊(1 - |userEnergy pattern h - (e : ℚ) / 3|) * 100 + 1/2⌋ :=
      Int.floor_le_floor (by linarith)
    have hhi : ⌊(1 - |userEnergy pattern h - (e : ℚ) / 3|) * 100 + 1/2⌋ ≤
        ⌊(1 - |userEnergy pattern h - (e : ℚ) / 3|) * 100⌋ + 1 := by
      calc ⌊(1 - |userEnergy pattern h - (e : ℚ) / 3|) * 100 + 1/2⌋
          ≤ ⌊(1 - |userEnergy pattern h - (e : ℚ) / 3|) * 100 + 1⌋ :=
            Int.floor_le_floor (by linarith)
        _ = ⌊(1 - |userEnergy pattern h - (e : ℚ) / 3|) * 100⌋ + 1 := by
            exact_mod_cast Int.floor_add_one _
    omega
  · intro hnone
    unfold userEnergy
    rw [hnone]
    rfl
  · intro t s
    unfold solveObjective
    simp
    ring_nf

/-- C8, witness: the amended statement at the counterexample pattern. -/
theorem c8_energy_table_witness :
    (0 ≤ energyMatchScore [((8:ℕ), (4:ℚ)/5)] 2 8 ∧
      energyMatchScore [((8:ℕ), (4:ℚ)/5)] 2 8 ≤ 100) ∧
    (energyMatchScoreSpec [((8:ℕ), (4:ℚ)/5)] 2 8 =
        energyMatchScore [((8:ℕ), (4:ℚ)/5)] 2 8 ∨
      energyMatchScoreSpec [((8:ℕ), (4:ℚ)/5)] 2 8 =
        energyMatchScore [((8:ℕ), (4:ℚ)/5)] 2 8 + 1) :=
  have h := c8_energy_table [((8:ℕ), (4:ℚ)/5)] 2 8
    (by decide) (by decide) (by decide)
  ⟨h.1, h.2.1⟩

/-! ## C9 — sleep-quality scoring -/

/-- C9, counterexample: with no physiological data, an actual sleep that
exactly matches the recommended 8 h window 23:00–07:00 scores 70, not
100 — the physiological weight is not redistributed, the component just
scores 0 under the fixed default weights 0.4/0.3/0.3. -/
theorem c9_perfect_sleep_without_physio_scores_70 :
    analyze_sleep_quality ⟨28800, (23, 0), (7, 0)⟩ 28800 1380 420 [] [] = .ok 70 ∧
    ¬ (70 : ℚ) = 100 := by
  exact ⟨by decide, by decide⟩

/-- C9, amended: every successful quality analysis yields a score in
`[0, 100]` (the final clamp), and with no physiological data the fixed
default weights make an exactly matching sleep score
`100·(0.4 + 0.3) = 70`; the claimed redistribution of the physiological
weight does not happen (only the HR/HRV sub-weights inside the
physiological component are redistributed). -/
theorem c9_quality_score (ideal : SleepMetrics) (dur : ℚ) (ab aw : ℤ)
    (hr hrv : List ℚ) :
    (∀ q, analyze_sleep_quality ideal dur ab aw hr hrv = .ok q →
      0 ≤ q ∧ q ≤ 100) ∧
    (hr = [] → hrv = [] → 0 < dur → dur = ideal.ideal_duration_seconds →
      ab = (time_to_total_minutes ideal.ideal_bedtime.1 ideal.ideal_bedtime.2 : ℤ) →
      aw = (time_to_total_minutes ideal.ideal_wake_time.1 ideal.ideal_wake_time.2 : ℤ) →
      analyze_sleep_quality ideal dur ab aw hr hrv = .ok 70) := by
  constructor
  · intro q hq
    unfold analyze_sleep_quality at hq
    split_ifs at hq
    simp only [Except.ok.injEq] at hq
    subst hq
    constructor
    · exact le_max_left 0 _
    · exact max_le (by norm_num) (min_le_left _ _)
  · intro hhr hhrv hdur hmatch hab haw
    subst hhr hhrv hmatch hab haw
    unfold analyze_sleep_quality
    rw [if_neg (by linarith)]
    have hds : duration_score ideal.ideal_duration_seconds ideal.ideal_duration_seconds
        = 100 := by
      unfold duration_score
      rw [sub_self, abs_zero, if_pos (by norm_num)]
    have hwd : ∀ a : ℤ, wrapDiff a a = 0 := by
      intro a
      unfold wrapDiff
      rw [sub_self, abs_zero]
      norm_num
    have hts : ∀ a b : ℤ, timing_score a b a b = 100 := by
      intro a b
      unfold timing_score
      rw [hwd, hwd]
      unfold timing_part_score
      rw [if_pos (by norm_num)]
      norm_num
    have hps : physiological_score [] [] = 0 := by decide
    rw [hds, hts, hps]
    norm_num

/-- C9, witness: the amended statement at the concrete 8 h window
22:00–06:00. -/
theorem c9_quality_score_witness :
    analyze_sleep_quality ⟨28800, (22, 0), (6, 0)⟩ 28800 1320 360 [] [] = .ok 70 ∧
    (0 ≤ (70 : ℚ) ∧ (70 : ℚ) ≤ 100) :=
  have h := c9_quality_score ⟨28800, (22, 0), (6, 0)⟩ 28800 1320 360 [] []
  have hok := h.2 rfl rfl (by norm_num) rfl (by decide) (by decide)
  ⟨hok, h.1 70 hok⟩

/-! ## C10 — chronotype profile score bounds -/

/-- The invariant of claim C10. -/
def profileBounded (p : ChronotypeProfile) : Prop :=
  0 ≤ p.chronotype_strength ∧ p.chronotype_strength ≤ 1 ∧
    0 ≤ p.consistency_score ∧ p.consistency_score ≤ 1

theorem confidenceFromStdev_bounds {s : ℚ} (hs : 0 ≤ s) :
    0 ≤ confidenceFromStdev s ∧ confidenceFromStdev s ≤ 1 := by
  unfold confidenceFromStdev
  constructor
  · exact le_max_left 0 _
  · apply max_le (by norm_num)
    have : 0 ≤ s / max (1/10) 4 := by positivity
    linarith

theorem update_preserves_bounds (p : ChronotypeProfile) (ct : Chronotype) (s : ℚ)
    (hs : 0 ≤ s) (hp : profileBounded p) :
    profileBounded (update_chronotype_profile p (some (ct, confidenceFromStdev s))) := by
  obtain ⟨hc0, hc1⟩ := confidenceFromStdev_bounds hs
  simp only [update_chronotype_profile]
  split_ifs
  · exact hp
  · exact ⟨hc0, hc1, le_max_left 0 _, max_le (by norm_num) (min_le_left _ _)⟩

/-- C10: strength and consistency are clamped into `[0, 1]` at
construction, and stay in `[0, 1]` after any sequence of sleep-data
updates (each update's confidence is `max(0, 1 − stdev/scale)` for a
nonnegative standard deviation, and the blended consistency
`0.7·old + 0.3·new` is clamped again). -/
theorem mk_profile_bounded (c : Chronotype) (s t : ℚ) :
    profileBounded (mkChronotypeProfile c s t) := by
  unfold mkChronotypeProfile profileBounded
  exact ⟨le_max_left 0 _, max_le (by norm_num) (min_le_left _ _),
    le_max_left 0 _, max_le (by norm_num) (min_le_left _ _)⟩

theorem applyUpdates_preserves_bounds (p : ChronotypeProfile)
    (us : List (Chronotype × ℚ)) (hp : profileBounded p)
    (hu : ∀ u ∈ us, 0 ≤ u.2) : profileBounded (applyProfileUpdates p us) := by
  induction us generalizing p with
  | nil => exact hp
  | cons v vs ih =>
    unfold applyProfileUpdates
    exact ih _ (update_preserves_bounds p v.1 v.2 (hu v (List.mem_cons_self _ _)) hp)
      (fun w hw => hu w (List.mem_cons_of_mem _ hw))

/-- C10: strength and consistency are clamped into `[0, 1]` at
construction, and stay in `[0, 1]` after any sequence of sleep-data
updates (each update's confidence is `max(0, 1 − stdev/scale)` for a
nonnegative standard deviation, and the blended consistency
`0.7·old + 0.3·new` is clamped again). -/
theorem c10_profile_score_bounds (c : Chronotype) (strength consistency : ℚ)
    (updates : List (Chronotype × ℚ)) (hup : ∀ u ∈ updates, 0 ≤ u.2) :
    profileBounded (applyProfileUpdates (mkChronotypeProfile c strength consistency) updates) :=
  applyUpdates_preserves_bounds _ updates (mk_profile_bounded c strength consistency) hup

/-- C10, witness: an out-of-range construction followed by two updates
stays in bounds. -/
theorem c10_profile_score_bounds_witness :
    profileBounded (applyProfileUpdates (mkChronotypeProfile .unknown 7 (-2))
      [(.early_bird, 1), (.night_owl, 0)]) :=
  c10_profile_score_bounds .unknown 7 (-2) [(.early_bird, 1), (.night_owl, 0)]
    (by decide)

/-! ## C1, C2, C3 — orchestrator-level claims -/

/-- Disabled-LLM marker used when calling the embedded `generate`. -/
def noLlm : Except String (List ItemOut × List (String × MetricVal)) :=
  .error disabledMsg
where
  disabledMsg : String := "llm disabled"

/-- Title strings for concrete task inputs. -/
def titleA : String := "report"

def titleB : String := "reading"

/-- C1 failing input: empty task list, no fixed events, preferred wake
08:30 with neutral scales (adult age 30 gives the intra-day sleep window
00:30–08:30), and a dinner preference of 23:50 for 30 minutes. -/
def c1Input : ScheduleInputData :=
  ⟨1, [], [],
   { defaultPreferences with
      preferred_wake_time := some (8, 30), sleep_need_scale := some 50,
      chronotype_scale := some 50, dinner_minutes := some 1430,
      dinner_duration := some 30 },
   "thu".toList, some 30, some 55⟩

/-- C1: on the failing input the generated schedule is non-failed (seven
items) but its items do not tile `[0, 1440]`: the dinner block runs from
minute 1430 to minute 1460, past the end of the day, so the last item
does not end at 1440. -/
theorem c1_schedule_items_escape_day :
    ((generate_schedule c1Input (fun _ => some []) false noLlm).scheduled_items.map
        (fun i => (i.start_minutes, i.end_minutes)) =
      [(0, 30), (30, 510), (510, 540), (540, 750), (750, 795), (795, 1430), (1430, 1460)]) ∧
    tilesDay (generate_schedule c1Input (fun _ => some []) false noLlm).scheduled_items
      = false ∧
    ¬ (generate_schedule c1Input (fun _ => some []) false noLlm).metrics =
      [(create_empty.keyStatus, .str create_empty.statusFailed)] := by
  exact ⟨by decide, by decide, by decide⟩

/-- C2: whenever solver-input preparation succeeds but the constraint
solver reports no solution, `generate` returns a `GeneratedSchedule` (it
never raises) with an empty item list, `metrics.status = "failed"`, and
at least one warning. -/
theorem c2_no_solution_failed_schedule (input : ScheduleInputData)
    (oracle : List (SolverTask × ℤ × ℤ) → Option (List (ℕ × ℤ × ℤ)))
    (llm_enabled : Bool)
    (llm : Except String (List ItemOut × List (String × MetricVal)))
    (si : SolverInput)
    (h1 : prepare_solver_input input (prepare_profile input.meq_score)
      (calculate_sleep (prepare_profile input.meq_score) input) = some si)
    (h2 : solveSkeleton si oracle = none) :
    (generate_schedule input oracle llm_enabled llm).scheduled_items = [] ∧
    List.lookup create_empty.keyStatus
      (generate_schedule input oracle llm_enabled llm).metrics =
        some (.str create_empty.statusFailed) ∧
    ¬ (generate_schedule input oracle llm_enabled llm).warnings = [] := by
  unfold generate_schedule
  simp only [h1, h2]
  refine ⟨rfl, ?_, by simp [create_empty]⟩
  simp [create_empty, List.lookup]

/-- One feasible task used by the C2 witness. -/
def c2Input : ScheduleInputData :=
  ⟨3, [⟨20, titleA, .int 60, 3, 2, none, none, [], false⟩], [],
   defaultPreferences, "mon".toList, some 30, none⟩

/-- The solver input the C2 witness's preparation produces. -/
def c2Si : SolverInput :=
  (prepare_solver_input c2Input (prepare_profile c2Input.meq_score)
    (calculate_sleep (prepare_profile c2Input.meq_score) c2Input)).getD
    ⟨[], [], 0, 1440, []⟩

/-- C2, witness: a run whose solver oracle answers "no solution"
produces the failed schedule shape. -/
theorem c2_no_solution_failed_schedule_witness :
    (generate_schedule c2Input (fun _ => none) false noLlm).scheduled_items = [] ∧
    List.lookup create_empty.keyStatus
      (generate_schedule c2Input (fun _ => none) false noLlm).metrics =
        some (.str create_empty.statusFailed) ∧
    ¬ (generate_schedule c2Input (fun _ => none) false noLlm).warnings = [] :=
  c2_no_solution_failed_schedule c2Input (fun _ => none) false noLlm c2Si
    (by decide) (by decide)

/-- C3 counterexample input: one task whose explicit earliest start
(10:00) plus duration (120 min) exceeds its deadline (minute 660), and a
second, perfectly schedulable task. -/
def c3Input : ScheduleInputData :=
  ⟨2, [⟨10, titleA, .int 120, 3, 2, some (10, 0), some 660, [], false⟩,
       ⟨11, titleB, .int 60, 3, 2, none, none, [], false⟩], [],
   defaultPreferences, "thu".toList, some 30, none⟩

/-- C3, counterexample: the infeasible task makes
`SolverTask.__post_init__` raise inside `_prepare_solver_input`, so the
whole generation returns the failed empty schedule — the feasible second
task is not scheduled and solving does not continue. -/
theorem c3_infeasible_task_fails_whole_run :
    buildSolverTasks c3Input.tasks = .error mkSolverTask.impossibleMsg ∧
    (generate_schedule c3Input (fun _ => some []) false noLlm).scheduled_items = [] ∧
    (generate_schedule c3Input (fun _ => some []) false noLlm).metrics =
      [(create_empty.keyStatus, .str create_empty.statusFailed)] := by
  exact ⟨by decide, by decide, by decide⟩

/-- C3, amended: only a task whose *effective day-window* is too small is
dropped at variable creation while solving continues on the rest — a
task with an explicit earliest start and deadline that contradict its
duration instead aborts the entire generation (see the counterexample).
Dropped tasks get no variable, every other task keeps its window, and
the solver still runs on the remaining variables.  The window defaults
use Python's falsy `or`, so `latest_end_minutes = 0` falls back to the
full horizon rather than forcing an empty window. -/
theorem c3_window_infeasible_dropped (si : SolverInput) (t : SolverTask)
    (ht : t ∈ si.tasks) :
    ((taskWindow si t).2 < (taskWindow si t).1 →
      ∀ s e, ¬ (t, s, e) ∈ taskVars si) ∧
    (¬ (taskWindow si t).2 < (taskWindow si t).1 →
      (t, (taskWindow si t).1, (taskWindow si t).2) ∈ taskVars si) ∧
    (∀ oracle, ¬ si.tasks = [] → ¬ taskVars si = [] →
      solveSkeleton si oracle = oracle (taskVars si)) := by
  refine ⟨?_, ?_, ?_⟩
  · intro hw s e hmem
    simp only [taskVars, List.mem_filterMap] at hmem
    obtain ⟨t', ht', hf⟩ := hmem
    by_cases hw' : (taskWindow si t').2 < (taskWindow si t').1
    · rw [if_pos hw'] at hf
      exact Option.noConfusion hf
    · rw [if_neg hw'] at hf
      have : t' = t := congrArg (fun x => x.1) (Option.some.inj hf)
      subst this
      exact hw' hw
  · intro hw
    simp only [taskVars, List.mem_filterMap]
    exact ⟨t, ht, by rw [if_neg hw]⟩
  · intro oracle h1 h2
    unfold solveSkeleton
    rw [if_neg h1, if_neg h2]

/-- Concrete solver input for the C3 witness: a task with earliest start
23:20 and duration 60 cannot fit before the end of the day and is
dropped; a free 60-minute task keeps its full-day window; a task with
`latest_end_minutes = 0` falls under Python's falsy `or` and also keeps
the full-day window. -/
def c3Si : SolverInput :=
  ⟨[⟨30, 60, 3, 2, some 1400, none, []⟩, ⟨31, 60, 3, 2, none, none, []⟩,
    ⟨32, 60, 3, 2, none, some 0, []⟩],
   [], 0, 1440, []⟩

/-- C3, witness: the amended statement at `c3Si`.  The third conjunct
shows the falsy-`or` fallback: `latest_end_minutes = 0` gives the
full-day window `(0, 1380)`, not an empty one, so the task is kept. -/
theorem c3_window_infeasible_dropped_witness :
    (¬ ((⟨30, 60, 3, 2, some 1400, none, []⟩ : SolverTask), (1400 : ℤ), (1380 : ℤ))
        ∈ taskVars c3Si) ∧
    ((⟨31, 60, 3, 2, none, none, []⟩ : SolverTask), (0 : ℤ), (1380 : ℤ)) ∈ taskVars c3Si ∧
    ((⟨32, 60, 3, 2, none, some 0, []⟩ : SolverTask), (0 : ℤ), (1380 : ℤ)) ∈ taskVars c3Si ∧
    solveSkeleton c3Si (fun _ => none) = none :=
  have hA := c3_window_infeasible_dropped c3Si ⟨30, 60, 3, 2, some 1400, none, []⟩
    (by decide)
  have hB := c3_window_infeasible_dropped c3Si ⟨31, 60, 3, 2, none, none, []⟩
    (by decide)
  have hC := c3_window_infeasible_dropped c3Si ⟨32, 60, 3, 2, none, some 0, []⟩
    (by decide)
  ⟨hA.1 (by decide) 1400 1380, hB.2.1 (by decide), hC.2.1 (by decide),
   (hB.2.2 (fun _ => none) (by decide) (by decide)).trans rfl⟩

/-! ## C6 — TimeUtils round trips -/

theorem takeWhile_append_all (p : Char → Bool) (D rest : List Char)
    (h : ∀ c ∈ D, p c = true) :
    List.takeWhile p (D ++ rest) = D ++ List.takeWhile p rest := by
  induction D with
  | nil => simp
  | cons a t ih =>
    rw [List.cons_append, List.takeWhile_cons, h a (List.mem_cons_self a t),
      ih (fun c hc => h c (List.mem_cons_of_mem _ hc))]
    rfl

theorem dropWhile_append_all (p : Char → Bool) (D rest : List Char)
    (h : ∀ c ∈ D, p c = true) :
    List.dropWhile p (D ++ rest) = List.dropWhile p rest := by
  induction D with
  | nil => simp
  | cons a t ih =>
    rw [List.cons_append, List.dropWhile_cons]
    simp only [h a (List.mem_cons_self a t), if_true]
    exact ih (fun c hc => h c (List.mem_cons_of_mem _ hc))

theorem takeWhile_cons_neg (p : Char → Bool) (c : Char) (r : List Char)
    (h : p c = false) : List.takeWhile p (c :: r) = [] := by
  simp [List.takeWhile_cons, h]

theorem dropWhile_cons_neg (p : Char → Bool) (c : Char) (r : List Char)
    (h : p c = false) : List.dropWhile p (c :: r) = c :: r := by
  simp [List.dropWhile_cons, h]

theorem findMatches_nil : findMatches [] = [] := by
  rw [findMatches]

theorem findMatches_skip (c : Char) (r : List Char) (h : c.isDigit = false) :
    findMatches (c :: r) = findMatches r := by
  rw [findMatches]
  simp [h]

theorem findMatches_run (D : List Char) (u : Char) (rest : List Char)
    (hne : ¬ D = []) (hall : ∀ c ∈ D, c.isDigit = true)
    (hu : u = 'h' ∨ u = 'm' ∨ u = 's') :
    findMatches (D ++ u :: rest) = ⟨D, none, some u⟩ :: findMatches rest := by
  obtain ⟨c, Dt, rfl⟩ : ∃ c Dt, D = c :: Dt := by
    cases D with
    | nil => exact absurd rfl hne
    | cons c Dt => exact ⟨c, Dt, rfl⟩
  have hds : List.takeWhile Char.isDigit ((c :: Dt) ++ u :: rest) = c :: Dt := by
    rcases hu with rfl | rfl | rfl <;>
      rw [takeWhile_append_all _ _ _ hall, takeWhile_cons_neg _ _ _ (by decide),
        List.append_nil]
  have hdr : List.dropWhile Char.isDigit ((c :: Dt) ++ u :: rest) = u :: rest := by
    rcases hu with rfl | rfl | rfl <;>
      rw [dropWhile_append_all _ _ _ hall, dropWhile_cons_neg _ _ _ (by decide)]
  rw [List.cons_append, findMatches]
  rw [dif_pos (hall c (List.mem_cons_self c Dt))]
  simp only [← List.cons_append, hds, hdr]
  rcases hu with rfl | rfl | rfl
  · simp [fracScan, dropWhile_cons_neg isPySpace 'h' rest (by decide)]
  · simp [fracScan, dropWhile_cons_neg isPySpace 'm' rest (by decide)]
  · simp [fracScan, dropWhile_cons_neg isPySpace 's' rest (by decide)]

theorem findMatches_run_end (D : List Char) (hne : ¬ D = [])
    (hall : ∀ c ∈ D, c.isDigit = true) :
    findMatches D = [⟨D, none, none⟩] := by
  obtain ⟨c, Dt, rfl⟩ : ∃ c Dt, D = c :: Dt := by
    cases D with
    | nil => exact absurd rfl hne
    | cons c Dt => exact ⟨c, Dt, rfl⟩
  have hds : List.takeWhile Char.isDigit (c :: Dt) = c :: Dt := by
    rw [← List.append_nil (c :: Dt), takeWhile_append_all _ _ _ hall]
    rfl
  have hdr : List.dropWhile Char.isDigit (c :: Dt) = [] := by
    rw [← List.append_nil (c :: Dt), dropWhile_append_all _ _ _ hall]
    rfl
  rw [findMatches]
  rw [dif_pos (hall c (List.mem_cons_self c Dt))]
  simp only [hds, hdr]
  simp [fracScan]


theorem digitChar_isDigit {k : ℕ} (hk : k < 10) : (Nat.digitChar k).isDigit = true := by
  interval_cases k <;> decide

theorem digitChar_val {k : ℕ} (hk : k < 10) : digitVal (Nat.digitChar k) = k := by
  interval_cases k <;> decide

theorem digitChar_lower {k : ℕ} (hk : k < 10) :
    Char.toLower (Nat.digitChar k) = Nat.digitChar k := by
  interval_cases k <;> decide

theorem digitChar_not_space {k : ℕ} (hk : k < 10) :
    isPySpace (Nat.digitChar k) = false := by
  interval_cases k <;> decide

theorem digitChar_ne_space {k : ℕ} (hk : k < 10) : ¬ Nat.digitChar k = ' ' := by
  interval_cases k <;> decide

theorem natDigits_ne_nil (n : ℕ) : ¬ natDigits n = [] := by
  rw [natDigits]
  split_ifs <;> simp

theorem natDigits_all (n : ℕ) : ∀ c ∈ natDigits n, ∃ k, k < 10 ∧ c = Nat.digitChar k := by
  induction n using Nat.strong_induction_on with
  | _ n ih =>
    rw [natDigits]
    split_ifs with h
    · intro c hc
      simp at hc
      exact ⟨n, h, hc⟩
    · intro c hc
      simp at hc
      rcases hc with hc | hc
      · exact ih (n / 10) (Nat.div_lt_self (by omega) (by omega)) c hc
      · exact ⟨n % 10, Nat.mod_lt _ (by omega), hc⟩

theorem natDigits_isDigit (n : ℕ) : ∀ c ∈ natDigits n, c.isDigit = true := by
  intro c hc
  obtain ⟨k, hk, rfl⟩ := natDigits_all n c hc
  exact digitChar_isDigit hk

theorem parse_foldl (n : ℕ) : ∀ a : ℕ,
    List.foldl (fun a c => a * 10 + digitVal c) a (natDigits n) =
      a * 10 ^ (natDigits n).length + n := by
  induction n using Nat.strong_induction_on with
  | _ n ih =>
    intro a
    rw [natDigits]
    split_ifs with h
    · simp [digitChar_val h]
    · rw [List.foldl_append, List.length_append]
      rw [ih (n / 10) (Nat.div_lt_self (by omega) (by omega))]
      simp [digitChar_val (Nat.mod_lt n (by omega) : n % 10 < 10)]
      ring_nf
      omega

theorem parseNatDigits_natDigits (n : ℕ) : parseNatDigits (natDigits n) = n := by
  unfold parseNatDigits
  rw [parse_foldl]
  simp

theorem pyStrip_id (l : List Char)
    (hhead : ∀ c, l.head? = some c → isPySpace c = false)
    (hlast : ∀ c, l.getLast? = some c → isPySpace c = false) :
    pyStrip l = l := by
  unfold pyStrip
  cases l with
  | nil => simp
  | cons a t =>
    rw [dropWhile_cons_neg _ _ _ (hhead a rfl)]
    cases hr : (a :: t).reverse with
    | nil => simp at hr
    | cons b r2 =>
      have hb : (a :: t).getLast? = some b := by
        rw [← List.head?_reverse, hr]
        rfl
      have hrr : (b :: r2).reverse = a :: t := by
        rw [← hr, List.reverse_reverse]
      rw [dropWhile_cons_neg _ _ _ (hlast b hb), hrr]

theorem pyLower_id (l : List Char) (h : ∀ c ∈ l, Char.toLower c = c) :
    pyLower l = l := by
  unfold pyLower
  induction l with
  | nil => rfl
  | cons a t ih =>
    rw [List.map_cons, h a (List.mem_cons_self a t),
      ih (fun c hc => h c (List.mem_cons_of_mem _ hc))]

theorem pyRound_natCast (v : ℕ) : pyRound (v : ℚ) = v := by
  unfold pyRound
  norm_num

theorem filter_all_pass (p : Char → Bool) (l : List Char)
    (h : ∀ c ∈ l, p c = true) : l.filter p = l := by
  induction l with
  | nil => rfl
  | cons a t ih =>
    rw [List.filter_cons, if_pos (h a (List.mem_cons_self a t)),
      ih (fun c hc => h c (List.mem_cons_of_mem _ hc))]

theorem parse_core (F : List Char) (ms : List DurMatch) (v : ℕ)
    (hne : ¬ F = []) (hstrip : pyStrip F = F) (hlower : pyLower F = F)
    (hms : findMatches F = ms) (hmsne : ¬ ms = [])
    (hlen : (ms.map processedLen).sum = (F.filter (fun c => ¬ c = ' ')).length)
    (hsum : (ms.map matchMinutes).sum = (v : ℚ)) :
    parse_duration_string F = some (v : ℤ) := by
  unfold parse_duration_string
  simp only [hstrip, hlower, hms]
  rw [if_neg hne, if_neg hmsne, if_neg (not_not_intro hlen)]
  rw [hsum]
  show (if pyRound ((v : ℕ) : ℚ) < 0 then none else some (pyRound ((v : ℕ) : ℚ)))
    = some (v : ℤ)
  rw [pyRound_natCast, if_neg (by omega)]

theorem natDigits_lower (n : ℕ) : ∀ c ∈ natDigits n, Char.toLower c = c := by
  intro c hc
  obtain ⟨k, hk, rfl⟩ := natDigits_all n c hc
  exact digitChar_lower hk

theorem natDigits_filter_pass (n : ℕ) :
    (natDigits n).filter (fun c => ¬ c = ' ') = natDigits n := by
  apply filter_all_pass
  intro c hc
  obtain ⟨k, hk, rfl⟩ := natDigits_all n c hc
  simpa using digitChar_ne_space hk

theorem natDigits_head_not_space (n : ℕ) :
    ∀ c, (natDigits n).head? = some c → isPySpace c = false := by
  intro c hc
  have hmem : c ∈ natDigits n := by
    cases hnd : natDigits n with
    | nil => rw [hnd] at hc; simp at hc
    | cons a t =>
      rw [hnd] at hc
      simp at hc
      rw [← hc]
      exact List.mem_cons_self a t
  obtain ⟨k, hk, rfl⟩ := natDigits_all n c hmem
  exact digitChar_not_space hk

theorem parse_two_part (h m : ℕ) :
    parse_duration_string (natDigits h ++ 'h' :: ' ' :: natDigits m ++ ['m']) =
      some ((h * 60 + m : ℕ) : ℤ) := by
  apply parse_core _ [⟨natDigits h, none, some 'h'⟩, ⟨natDigits m, none, some 'm'⟩]
  · simp [natDigits_ne_nil]
  · apply pyStrip_id
    · intro x hx
      cases hnd : natDigits h with
      | nil => exact absurd hnd (natDigits_ne_nil h)
      | cons a t =>
        rw [hnd] at hx
        simp at hx
        rw [← hx]
        exact natDigits_head_not_space h a (by rw [hnd]; rfl)
    · intro x hx
      rw [List.getLast?_concat] at hx
      simp at hx
      rw [← hx]
      rfl
  · apply pyLower_id
    intro x hx
    simp at hx
    rcases hx with hx | hx | hx | hx | hx <;>
      first
        | (exact natDigits_lower h x hx)
        | (exact natDigits_lower m x hx)
        | (subst hx; decide)
  · simp only [List.append_assoc, List.cons_append]
    calc findMatches (natDigits h ++ 'h' :: ' ' :: (natDigits m ++ ['m']))
        = ⟨natDigits h, none, some 'h'⟩ ::
            findMatches (' ' :: (natDigits m ++ ['m'])) :=
          findMatches_run _ 'h' _ (natDigits_ne_nil h) (natDigits_isDigit h) (Or.inl rfl)
      _ = ⟨natDigits h, none, some 'h'⟩ :: findMatches (natDigits m ++ ['m']) := by
          rw [findMatches_skip ' ' _ (by decide)]
      _ = [⟨natDigits h, none, some 'h'⟩, ⟨natDigits m, none, some 'm'⟩] := by
          rw [show natDigits m ++ ['m'] = natDigits m ++ 'm' :: [] from rfl]
          rw [findMatches_run _ 'm' [] (natDigits_ne_nil m)
            (natDigits_isDigit m) (Or.inr (Or.inl rfl)), findMatches_nil]
  · simp
  · simp only [List.map_cons, List.map_nil, List.sum_cons, List.sum_nil, processedLen]
    simp only [List.filter_append, List.filter_cons]
    rw [natDigits_filter_pass, natDigits_filter_pass]
    simp [List.length_append]
    omega
  · simp only [List.map_cons, List.map_nil, List.sum_cons, List.sum_nil,
      matchMinutes, matchValue, parseNatDigits_natDigits]
    push_cast
    ring

theorem parse_h_only (h : ℕ) :
    parse_duration_string (natDigits h ++ ['h']) = some ((h * 60 : ℕ) : ℤ) := by
  apply parse_core _ [⟨natDigits h, none, some 'h'⟩]
  · simp [natDigits_ne_nil]
  · apply pyStrip_id
    · intro x hx
      cases hnd : natDigits h with
      | nil => exact absurd hnd (natDigits_ne_nil h)
      | cons a t =>
        rw [hnd] at hx
        simp at hx
        rw [← hx]
        exact natDigits_head_not_space h a (by rw [hnd]; rfl)
    · intro x hx
      rw [List.getLast?_concat] at hx
      simp at hx
      rw [← hx]
      rfl
  · apply pyLower_id
    intro x hx
    simp at hx
    rcases hx with hx | hx <;>
      first
        | (exact natDigits_lower h x hx)
        | (subst hx; decide)
  · rw [show natDigits h ++ ['h'] = natDigits h ++ 'h' :: [] from rfl]
    rw [findMatches_run _ 'h' [] (natDigits_ne_nil h)
      (natDigits_isDigit h) (Or.inl rfl), findMatches_nil]
  · simp
  · simp only [List.map_cons, List.map_nil, List.sum_cons, List.sum_nil, processedLen]
    rw [List.filter_append, List.filter_cons, natDigits_filter_pass]
    simp [List.length_append]
  · simp only [List.map_cons, List.map_nil, List.sum_cons, List.sum_nil,
      matchMinutes, matchValue, parseNatDigits_natDigits]
    push_cast
    ring

theorem parse_m_only (m : ℕ) :
    parse_duration_string (natDigits m ++ ['m']) = some ((m : ℕ) : ℤ) := by
  apply parse_core _ [⟨natDigits m, none, some 'm'⟩]
  · simp [natDigits_ne_nil]
  · apply pyStrip_id
    · intro x hx
      cases hnd : natDigits m with
      | nil => exact absurd hnd (natDigits_ne_nil m)
      | cons a t =>
        rw [hnd] at hx
        simp at hx
        rw [← hx]
        exact natDigits_head_not_space m a (by rw [hnd]; rfl)
    · intro x hx
      rw [List.getLast?_concat] at hx
      simp at hx
      rw [← hx]
      rfl
  · apply pyLower_id
    intro x hx
    simp at hx
    rcases hx with hx | hx <;>
      first
        | (exact natDigits_lower m x hx)
        | (subst hx; decide)
  · rw [show natDigits m ++ ['m'] = natDigits m ++ 'm' :: [] from rfl]
    rw [findMatches_run _ 'm' [] (natDigits_ne_nil m)
      (natDigits_isDigit m) (Or.inr (Or.inl rfl)), findMatches_nil]
  · simp
  · simp only [List.map_cons, List.map_nil, List.sum_cons, List.sum_nil, processedLen]
    rw [List.filter_append, List.filter_cons, natDigits_filter_pass]
    simp [List.length_append]
  · simp only [List.map_cons, List.map_nil, List.sum_cons, List.sum_nil,
      matchMinutes, matchValue, parseNatDigits_natDigits]
    simp

theorem format_shape (d : ℕ) (hd : 1 ≤ d) :
    format_timedelta (60 * (d : ℤ)) =
      if d / 60 = 0 then natDigits (d % 60) ++ ['m']
      else if d % 60 = 0 then natDigits (d / 60) ++ ['h']
      else natDigits (d / 60) ++ 'h' :: ' ' :: natDigits (d % 60) ++ ['m'] := by
  have hsign : ¬ (60 * (d : ℤ) < 0) := by push_neg; positivity
  have hna : (60 * (d : ℤ)).natAbs = 60 * d := by
    rw [show (60 * (d : ℤ)) = ((60 * d : ℕ) : ℤ) by push_cast; ring, Int.natAbs_ofNat]
  have h1 : 60 * d / 3600 = d / 60 := by omega
  have h2 : 60 * d % 3600 / 60 = d % 60 := by omega
  unfold format_timedelta
  simp only [hna, h1, h2, if_neg hsign]
  by_cases hq : d / 60 = 0
  · rw [if_neg (by omega : ¬ 0 < d / 60), if_pos (by omega : 0 < d % 60), if_pos hq]
    simp [joinSpace]
  · rw [if_pos (by omega : 0 < d / 60), if_neg hq]
    by_cases hm : d % 60 = 0
    · rw [if_neg (by omega : ¬ 0 < d % 60), if_pos hm]
      simp [joinSpace]
    · rw [if_pos (by omega : 0 < d % 60), if_neg hm]
      simp [joinSpace]

/-- C6: wall-clock round trip — for every valid `(h, m)` the
minutes conversion is inverted by `total_minutes_to_time`; and for every
positive whole-minute duration `d`, parsing the formatted duration string
(`format_timedelta` of `d` minutes) yields `d` again. -/
theorem c6_time_roundtrips :
    (∀ h m : ℕ, h ≤ 23 → m ≤ 59 →
      total_minutes_to_time (time_to_total_minutes h m) = (h, m)) ∧
    (∀ d : ℕ, 1 ≤ d →
      parse_duration_string (format_timedelta (60 * (d : ℤ))) = some (d : ℤ)) := by
  constructor
  · intro h m hh hm
    unfold total_minutes_to_time time_to_total_minutes
    have hv0 : (0 : ℤ) ≤ ((h * 60 + m : ℕ) : ℤ) := by positivity
    have hmin : min 1440 ((h * 60 + m : ℕ) : ℤ) = ((h * 60 + m : ℕ) : ℤ) :=
      min_eq_right (by push_cast; omega)
    have hmax : max 0 ((h * 60 + m : ℕ) : ℤ) = ((h * 60 + m : ℕ) : ℤ) :=
      max_eq_right hv0
    simp only [hmin, hmax, if_neg (show ¬ ((h * 60 + m : ℕ) : ℤ) = 1440 by push_cast; omega)]
    rw [Int.toNat_natCast]
    simp only [Prod.mk.injEq]
    constructor <;> omega
  · intro d hd
    rw [format_shape d hd]
    by_cases hq : d / 60 = 0
    · rw [if_pos hq, parse_m_only]
      congr 1
      omega
    · by_cases hm : d % 60 = 0
      · rw [if_neg hq, if_pos hm, parse_h_only]
        congr 1
        push_cast
        omega
      · rw [if_neg hq, if_neg hm, parse_two_part]
        congr 1
        push_cast
        omega

/-- C6, witness: both round trips at `9:41` and 135 minutes. -/
theorem c6_time_roundtrips_witness :
    total_minutes_to_time (time_to_total_minutes 9 41) = (9, 41) ∧
    parse_duration_string (format_timedelta (60 * ((135 : ℕ) : ℤ))) = some ((135 : ℕ) : ℤ) :=
  ⟨c6_time_roundtrips.1 9 41 (by decide) (by decide),
   c6_time_roundtrips.2 135 (by decide)⟩
